import Mathlib

/-!
Verification of the MangeLa rich feed analyzer (a Bluesky feed-analysis
browser extension) against its natural-language specification.

The development shallowly embeds the TypeScript source: pure functions become
Lean functions, the IndexedDB-backed stores become explicit lists threaded
through a `World` record, asynchronous fallible calls return `Except`, and
JavaScript numbers are modelled as `Int` (timestamps, counters) or `Rat`
(scores, which are exact divisions in the source formulas).

Field-name note: the store schema (src/db/schema.ts) names the interaction
fields `type` / `targetAuthorDid` and the engagement fields `type` / `fromDid`,
while the analytics module (src/analytics/compute.ts), its unit tests and the
README read `interactionType` / `targetDid` and `engagementType` / `actorDid`.
The two slices describe the same records; this embedding uses the schema.ts
names throughout and translates the analytics module's accesses accordingly
(`interaction.targetDid` is the record's target-author DID,
`interaction.interactionType` its type, and so on), matching the shapes the
analytics unit tests construct.
-/

namespace MangeLa

/-- JavaScript truthiness of an optional string, as used on pagination
cursors (`while (cursor)`): `undefined` and the empty string are falsy. -/
def jsTruthyStr : Option String → Bool
  | none => false
  | some s => !(s == "")

/-- A thrown JavaScript value as observed by `catch` blocks: either an
`Error` (carrying its `message`) or some other value (carrying the string
`String(value)` would produce). -/
inductive JsError where
  | error (message : String)
  | other (asString : String)
deriving DecidableEq, Repr

/-- The `error instanceof Error ? error.message : String(error)` pattern used
by every sync stage's catch block. -/
def errMessage : JsError → String
  | .error m => m
  | .other s => s

/-! ## Data model (src/db/schema.ts) -/

/-- Post type classification (schema.ts `PostType`). -/
inductive PostType where
  | post
  | repost
  | reply
  | quote
deriving DecidableEq, Repr

/-- Interaction type (schema.ts `InteractionType`). -/
inductive InteractionType where
  | like
  | reply
  | quote
  | repost
deriving DecidableEq, Repr

/-- String form of an interaction type, as interpolated into composite ids. -/
def InteractionType.asString : InteractionType → String
  | .like => "like"
  | .reply => "reply"
  | .quote => "quote"
  | .repost => "repost"

/-- Profile of a user you follow or who follows you (schema.ts
`StoredProfile`). -/
structure StoredProfile where
  did : String
  handle : String
  displayName : Option String
  avatar : Option String
  followsYou : Bool
  youFollow : Bool
  isMutual : Bool
  lastUpdated : Int
deriving DecidableEq, Repr

/-- A post from your universe (schema.ts `StoredPost`). -/
structure StoredPost where
  uri : String
  cid : String
  authorDid : String
  authorHandle : String
  createdAt : Int
  indexedAt : Int
  postType : PostType
  repostedByDid : Option String
  repostedByHandle : Option String
  replyParentUri : Option String
  replyRootUri : Option String
  quotedUri : Option String
  textPreview : Option String
  likeCount : Nat
  repostCount : Nat
  replyCount : Nat
  quoteCount : Nat
  fetchedAt : Int
deriving DecidableEq, Repr

/-- Your interactions with posts (schema.ts `StoredInteraction`). -/
structure StoredInteraction where
  id : String
  type : InteractionType
  targetUri : String
  targetAuthorDid : String
  createdAt : Int
  yourPostUri : Option String
deriving DecidableEq, Repr

/-- Engagement received on YOUR posts (schema.ts `StoredEngagement`). -/
structure StoredEngagement where
  id : String
  type : InteractionType
  targetUri : String
  fromDid : String
  fromHandle : String
  createdAt : Int
  theirPostUri : Option String
deriving DecidableEq, Repr

/-- Sync status (schema.ts `SyncStatus`). -/
inductive SyncStatus where
  | idle
  | syncing
  | error
deriving DecidableEq, Repr

/-- Sync state tracking, one row per stage key (schema.ts `SyncState`). -/
structure SyncState where
  key : String
  lastCursor : Option String
  lastSyncAt : Int
  itemsProcessed : Nat
  status : SyncStatus
  error : Option String
deriving DecidableEq, Repr

/-! ## Analytics computation (src/analytics/compute.ts) -/

/-- Per-author aggregate of stored posts (compute.ts `UserContribution`).
The source copies `post.displayName` / `post.avatar` into the aggregate, but
`StoredPost` rows carry no such fields, so those reads yield `undefined`
(`none` here). -/
structure UserContribution where
  did : String
  handle : String
  displayName : Option String
  avatar : Option String
  postCount : Nat
  repostCount : Nat
  quoteCount : Nat
  replyCount : Nat
  totalCount : Nat
deriving DecidableEq, Repr

/-- Engagement between you and a specific user (compute.ts `UserEngagement`). -/
structure UserEngagement where
  did : String
  handle : String
  yourLikesOfTheir : Nat
  yourRepliesTo : Nat
  yourQuotesOf : Nat
  theirLikesOfYours : Nat
  theirRepliesToYours : Nat
  theirQuotesOfYours : Nat
  yourTotal : Nat
  theirTotal : Nat
deriving DecidableEq, Repr

/-- Noise score for a user (compute.ts `NoiseScore`); the `score` and rate
fields are exact rationals standing for the source's float arithmetic. -/
structure NoiseScore where
  did : String
  handle : String
  score : Rat
  volumePercentile : Rat
  engagementRate : Rat
  isMutual : Bool
  postCount : Nat
deriving DecidableEq, Repr

/-- Reciprocity score for mutual engagement (compute.ts `ReciprocityScore`). -/
structure ReciprocityScore where
  did : String
  handle : String
  score : Rat
  yourEngagement : Nat
  theirEngagement : Nat
  balanced : Bool
deriving DecidableEq, Repr

/-- Lookup in a JavaScript `Map` keyed by strings, modelled as an
insertion-ordered association list (`Map.prototype.get`). -/
def mapGet {α : Type} (m : List (String × α)) (k : String) : Option α :=
  (m.find? (fun p => p.1 == k)).map (fun p => p.2)

/-- Write to a JavaScript `Map`: an existing key keeps its insertion position
and gets the new value, a new key is appended (`Map.prototype.set`). -/
def mapSet {α : Type} (m : List (String × α)) (k : String) (v : α) :
    List (String × α) :=
  if m.any (fun p => p.1 == k) then
    m.map (fun p => if p.1 == k then (k, v) else p)
  else
    m ++ [(k, v)]

/-- One step of the aggregation loop in `aggregateUserContributions`: bump the
author's per-variant counter and recompute the total. -/
def contribStep (m : List (String × UserContribution)) (post : StoredPost) :
    List (String × UserContribution) :=
  let existing := (mapGet m post.authorDid).getD
    { did := post.authorDid, handle := post.authorHandle,
      displayName := none, avatar := none,
      postCount := 0, repostCount := 0, quoteCount := 0, replyCount := 0,
      totalCount := 0 }
  let bumped :=
    match post.postType with
    | .post => { existing with postCount := existing.postCount + 1 }
    | .repost => { existing with repostCount := existing.repostCount + 1 }
    | .quote => { existing with quoteCount := existing.quoteCount + 1 }
    | .reply => { existing with replyCount := existing.replyCount + 1 }
  let updated :=
    { bumped with totalCount :=
        bumped.postCount + bumped.repostCount + bumped.quoteCount +
          bumped.replyCount }
  mapSet m post.authorDid updated

/-- Group all stored posts by author (compute.ts
`aggregateUserContributions`), preserving `Map` insertion order. -/
def aggregateUserContributions (posts : List StoredPost) :
    List (String × UserContribution) :=
  posts.foldl contribStep []

/-- Engagement between you and a specific user (compute.ts
`getUserEngagement`): each counter collects the loop's `if`/`else if` branch
for one interaction or engagement type. Repost-typed records match no branch
and are not counted. -/
def getUserEngagement (interactions : List StoredInteraction)
    (engagements : List StoredEngagement) (targetDid targetHandle : String) :
    UserEngagement :=
  let yourLikesOfTheir := interactions.countP
    (fun i => decide (i.targetAuthorDid = targetDid ∧ i.type = .like))
  let yourRepliesTo := interactions.countP
    (fun i => decide (i.targetAuthorDid = targetDid ∧ i.type = .reply))
  let yourQuotesOf := interactions.countP
    (fun i => decide (i.targetAuthorDid = targetDid ∧ i.type = .quote))
  let theirLikesOfYours := engagements.countP
    (fun e => decide (e.fromDid = targetDid ∧ e.type = .like))
  let theirRepliesToYours := engagements.countP
    (fun e => decide (e.fromDid = targetDid ∧ e.type = .reply))
  let theirQuotesOfYours := engagements.countP
    (fun e => decide (e.fromDid = targetDid ∧ e.type = .quote))
  { did := targetDid, handle := targetHandle,
    yourLikesOfTheir := yourLikesOfTheir, yourRepliesTo := yourRepliesTo,
    yourQuotesOf := yourQuotesOf, theirLikesOfYours := theirLikesOfYours,
    theirRepliesToYours := theirRepliesToYours,
    theirQuotesOfYours := theirQuotesOfYours,
    yourTotal := yourLikesOfTheir + yourRepliesTo + yourQuotesOf,
    theirTotal := theirLikesOfYours + theirRepliesToYours + theirQuotesOfYours }

/-- Descending comparison used by `allCounts.sort((a, b) => b - a)`. -/
def natDescend (a b : Nat) : Prop := b ≤ a

instance : DecidableRel natDescend := fun a b =>
  inferInstanceAs (Decidable (b ≤ a))

instance : IsTotal Nat natDescend := ⟨fun a b => le_total b a⟩

instance : IsTrans Nat natDescend :=
  ⟨fun _ _ _ hab hbc => le_trans hbc hab⟩

/-- Noise score for a user (compute.ts `computeNoiseScore`). -/
def computeNoiseScore (posts : List StoredPost)
    (profiles : List StoredProfile) (interactions : List StoredInteraction)
    (engagements : List StoredEngagement) (targetDid targetHandle : String) :
    NoiseScore :=
  let contributions := aggregateUserContributions posts
  let profile := profiles.find? (fun p => p.did == targetDid)
  match mapGet contributions targetDid with
  | none =>
    { did := targetDid, handle := targetHandle, score := 0,
      volumePercentile := 0, engagementRate := 0,
      isMutual := (profile.map (fun p => p.isMutual)).getD false,
      postCount := 0 }
  | some userContribution =>
    let allCounts := contributions.map (fun c => c.2.totalCount)
    let sortedCounts := List.insertionSort natDescend allCounts
    let rank := sortedCounts.findIdx?
      (fun c => decide (c ≤ userContribution.totalCount))
    let volumePercentile : Rat :=
      match rank with
      | some r =>
        (((sortedCounts.length : Rat) - (r : Rat)) /
          (sortedCounts.length : Rat)) * 100
      | none => 0
    let engagement := getUserEngagement interactions engagements targetDid
      targetHandle
    let engagementRate : Rat :=
      if 0 < userContribution.totalCount then
        (engagement.yourTotal : Rat) / (userContribution.totalCount : Rat)
      else 0
    let baseScore := (volumePercentile / 100) * (1 - engagementRate)
    let score :=
      match profile with
      | some p =>
        if ¬p.isMutual ∧ p.youFollow ∧ ¬p.followsYou then
          min 1 (baseScore * (12 / 10))
        else baseScore
      | none => baseScore
    { did := targetDid, handle := targetHandle, score := score,
      volumePercentile := volumePercentile / 100,
      engagementRate := engagementRate,
      isMutual := (profile.map (fun p => p.isMutual)).getD false,
      postCount := userContribution.totalCount }

/-- Reciprocity score for mutual engagement (compute.ts
`computeReciprocityScore`). -/
def computeReciprocityScore (interactions : List StoredInteraction)
    (engagements : List StoredEngagement) (targetDid targetHandle : String) :
    ReciprocityScore :=
  let engagement := getUserEngagement interactions engagements targetDid
    targetHandle
  let yourTotal := engagement.yourTotal
  let theirTotal := engagement.theirTotal
  let combined := yourTotal + theirTotal
  let score : Rat :=
    if 0 < combined then (theirTotal : Rat) / (combined : Rat) else 0
  let mn := min yourTotal theirTotal
  let mx := max yourTotal theirTotal
  let balanced := decide (mx = 0 ∨ (4 / 5 : Rat) ≤ (mn : Rat) / (mx : Rat))
  { did := targetDid, handle := targetHandle, score := score,
    yourEngagement := yourTotal, theirEngagement := theirTotal,
    balanced := balanced }

/-- Descending order on noise scores, `(a, b) => b.score - a.score`. -/
def noiseDescend (a b : NoiseScore) : Prop := b.score ≤ a.score

instance : DecidableRel noiseDescend := fun a b =>
  inferInstanceAs (Decidable (b.score ≤ a.score))

/-- Descending order on reciprocity scores. -/
def reciprocityDescend (a b : ReciprocityScore) : Prop := b.score ≤ a.score

instance : DecidableRel reciprocityDescend := fun a b =>
  inferInstanceAs (Decidable (b.score ≤ a.score))

/-- Noise scores of every contributor, sorted descending by score
(compute.ts `computeAllNoiseScores`). -/
def computeAllNoiseScores (posts : List StoredPost)
    (profiles : List StoredProfile) (interactions : List StoredInteraction)
    (engagements : List StoredEngagement) : List NoiseScore :=
  let contributions := aggregateUserContributions posts
  let scores := contributions.map
    (fun c => computeNoiseScore posts profiles interactions engagements c.1
      c.2.handle)
  List.insertionSort noiseDescend scores

/-- Reciprocity scores of every contributor, sorted descending by score
(compute.ts `computeAllReciprocityScores`). -/
def computeAllReciprocityScores (posts : List StoredPost)
    (interactions : List StoredInteraction)
    (engagements : List StoredEngagement) : List ReciprocityScore :=
  let contributions := aggregateUserContributions posts
  let scores := contributions.map
    (fun c => computeReciprocityScore interactions engagements c.1 c.2.handle)
  List.insertionSort reciprocityDescend scores

/-! ## Store operations (src/db/database.ts and the per-entity modules)

Each IndexedDB object store is modelled as a list of records; `store.put`
(database.ts `put`) is the keyed upsert of IndexedDB: a record whose key
already exists replaces the old record, otherwise the record is added. -/

/-- Keyed upsert into a store, the behaviour of IndexedDB `store.put` used by
database.ts `put` and `putBatch`. -/
def storePut {α : Type} (store : List α) (key : α → String) (item : α) :
    List α :=
  if store.any (fun x => key x == key item) then
    store.map (fun x => if key x == key item then item else x)
  else
    store ++ [item]

/-- Composite interaction id (interactions.ts `makeInteractionId`). -/
def makeInteractionId (type : InteractionType) (targetUri : String) : String :=
  type.asString ++ ":" ++ targetUri

/-- Build an interaction record (interactions.ts `createInteraction`); the
source stamps `createdAt` with `Date.now()`, passed here as `now`. -/
def createInteraction (type : InteractionType)
    (targetUri targetAuthorDid : String) (yourPostUri : Option String)
    (now : Int) : StoredInteraction :=
  { id := makeInteractionId type targetUri, type := type,
    targetUri := targetUri, targetAuthorDid := targetAuthorDid,
    createdAt := now, yourPostUri := yourPostUri }

/-- Persist an interaction (interactions.ts `saveInteraction`, a `put` on the
interactions store keyed by `id`). -/
def saveInteraction (store : List StoredInteraction)
    (interaction : StoredInteraction) : List StoredInteraction :=
  storePut store (fun i => i.id) interaction

/-- Composite engagement id (engagements.ts `makeEngagementId`). -/
def makeEngagementId (type : InteractionType) (fromDid targetUri : String) :
    String :=
  type.asString ++ ":" ++ fromDid ++ ":" ++ targetUri

/-- Build an engagement record (engagements.ts `createEngagement`). -/
def createEngagement (type : InteractionType)
    (targetUri fromDid fromHandle : String) (theirPostUri : Option String)
    (now : Int) : StoredEngagement :=
  { id := makeEngagementId type fromDid targetUri, type := type,
    targetUri := targetUri, fromDid := fromDid, fromHandle := fromHandle,
    createdAt := now, theirPostUri := theirPostUri }

/-- Persist an engagement (engagements.ts `saveEngagement`). -/
def saveEngagement (store : List StoredEngagement)
    (engagement : StoredEngagement) : List StoredEngagement :=
  storePut store (fun e => e.id) engagement

/-! ## API client (src/api/client.ts) -/

/-- Error body optionally carried by a non-2xx Bluesky response
(types.ts `BskyApiError`). -/
structure BskyApiErrorBody where
  message : Option String
  errorCode : Option String
deriving DecidableEq, Repr

/-- A value thrown out of an API call. `ApiError` and `AuthError` are the two
error classes client.ts defines (`AuthError extends ApiError`); any other
thrown value — in particular a rejection of `fetch` itself — propagates
unwrapped and is modelled by `raw`. No transport-specific error class exists
in the source. -/
inductive ApiThrown where
  | authError (message : String)
  | apiError (message : String) (statusCode : Nat) (errorCode : Option String)
  | raw (err : JsError)
deriving DecidableEq, Repr

/-- Outcome of one `fetch`: either the promise rejects (network-level
failure) or a response with an HTTP status arrives. -/
inductive FetchOutcome where
  | networkFail (err : JsError)
  | response (status : Nat) (errorBody : Option BskyApiErrorBody)
      (text : String)
deriving DecidableEq, Repr

/-- Response.ok of the Fetch API: status in the inclusive range 200-299. -/
def responseOk (status : Nat) : Bool := 200 ≤ status && status ≤ 299

/-- JavaScript `a || b` on an optional string: falsy (absent or empty)
selects the fallback. -/
def jsOrString (a : Option String) (b : String) : String :=
  match a with
  | some s => if s == "" then b else s
  | none => b

/-- Authenticated API request (client.ts `apiRequest`), reduced to its
outcome classification: no session throws `AuthError('Not logged in to
Bluesky')`; a fetch rejection propagates unwrapped; a 401 response throws
`AuthError`; any other non-2xx response throws `ApiError` with the status;
a 2xx response resolves with the body text. -/
def apiRequest (hasSession : Bool) (outcome : FetchOutcome) :
    Except ApiThrown String :=
  if !hasSession then
    .error (.authError "Not logged in to Bluesky")
  else
    match outcome with
    | .networkFail e => .error (.raw e)
    | .response status errorBody text =>
      if !responseOk status then
        let errorData := (errorBody.getD { message := none, errorCode := none })
        if status = 401 then
          .error (.authError (jsOrString errorData.message
            "Authentication failed"))
        else
          .error (.apiError
            (jsOrString errorData.message ("API error: " ++ toString status))
            status errorData.errorCode)
      else
        .ok text

/-- Unauthenticated public API request (client.ts `publicApiRequest`): a
fetch rejection propagates unwrapped; any non-2xx response — including a
401 — throws `ApiError` with the status (this path has no `AuthError`
special case); a 2xx response resolves with the body text. -/
def publicApiRequest (outcome : FetchOutcome) : Except ApiThrown String :=
  match outcome with
  | .networkFail e => .error (.raw e)
  | .response status errorBody text =>
    if !responseOk status then
      let errorData := (errorBody.getD { message := none, errorCode := none })
      .error (.apiError
        (jsOrString errorData.message ("API error: " ++ toString status))
        status errorData.errorCode)
    else
      .ok text

/-! ## Cursor pagination (client.ts `getAllFollows`, `getAllLikes`, ...) -/

/-- Minimal profile view returned by the graph endpoints
(types.ts `ProfileView`). -/
structure ProfileView where
  did : String
  handle : String
  displayName : Option String
  avatar : Option String
deriving DecidableEq, Repr

/-- Response of `app.bsky.graph.getFollows` (types.ts `GetFollowsResponse`). -/
structure GetFollowsResponse where
  follows : List ProfileView
  cursor : Option String
deriving DecidableEq, Repr

/-- Response of `app.bsky.graph.getFollowers`
(types.ts `GetFollowersResponse`). -/
structure GetFollowersResponse where
  followers : List ProfileView
  cursor : Option String
deriving DecidableEq, Repr

/-- One like entry of `app.bsky.feed.getLikes` (types.ts). -/
structure LikeEntry where
  actor : ProfileView
deriving DecidableEq, Repr

/-- Response of `app.bsky.feed.getLikes` (types.ts `GetLikesResponse`). -/
structure GetLikesResponse where
  likes : List LikeEntry
  cursor : Option String
deriving DecidableEq, Repr

/-- The do-while cursor loop of client.ts `getAllFollows`: page `i` of the
run is the `i`-th response the server produces; the loop accumulates
`response.follows` and continues while the returned cursor is truthy. A page
fetch may fail (`getFollows` throws), which aborts the loop with that error.
`fuel` bounds the recursion; `none` means the bound was hit before the
server ended the data. -/
def getAllFollowsLoop (pages : Nat → Except JsError GetFollowsResponse) :
    Nat → Nat → Option (Except JsError (List ProfileView))
  | _, 0 => none
  | i, fuel + 1 =>
    match pages i with
    | .error e => some (.error e)
    | .ok page =>
      if jsTruthyStr page.cursor then
        match getAllFollowsLoop pages (i + 1) fuel with
        | none => none
        | some (.error e) => some (.error e)
        | some (.ok rest) => some (.ok (page.follows ++ rest))
      else
        some (.ok page.follows)

/-- The identical do-while cursor loop of client.ts `getAllFollowers`. -/
def getAllFollowersLoop (pages : Nat → Except JsError GetFollowersResponse) :
    Nat → Nat → Option (Except JsError (List ProfileView))
  | _, 0 => none
  | i, fuel + 1 =>
    match pages i with
    | .error e => some (.error e)
    | .ok page =>
      if jsTruthyStr page.cursor then
        match getAllFollowersLoop pages (i + 1) fuel with
        | none => none
        | some (.error e) => some (.error e)
        | some (.ok rest) => some (.ok (page.followers ++ rest))
      else
        some (.ok page.followers)

/-- The identical do-while cursor loop of client.ts `getAllLikes`. -/
def getAllLikesLoop (pages : Nat → Except JsError GetLikesResponse) :
    Nat → Nat → Option (Except JsError (List LikeEntry))
  | _, 0 => none
  | i, fuel + 1 =>
    match pages i with
    | .error e => some (.error e)
    | .ok page =>
      if jsTruthyStr page.cursor then
        match getAllLikesLoop pages (i + 1) fuel with
        | none => none
        | some (.error e) => some (.error e)
        | some (.ok rest) => some (.ok (page.likes ++ rest))
      else
        some (.ok page.likes)

/-! ## Feed and thread API shapes (src/api/types.ts), reduced to the fields
the sync stages read. Timestamps are already converted to milliseconds, as
`new Date(...).getTime()` does at every use site. -/

/-- View of a post as delivered by the feed endpoints (types.ts `PostView`
plus the `record` fields the stages read). `embedRecordUri` is the URI of an
`app.bsky.embed.record` embed when one is present. -/
structure PostView where
  uri : String
  cid : String
  authorDid : String
  authorHandle : String
  createdAt : Int
  indexedAt : Int
  text : String
  likeCount : Option Nat
  repostCount : Option Nat
  replyCount : Option Nat
  quoteCount : Option Nat
  embedRecordUri : Option String
deriving DecidableEq, Repr

/-- Feed item (types.ts `FeedViewPost`): the post plus whether the item
carries an `app.bsky.feed.defs#reasonRepost` reason. -/
structure FeedViewPost where
  post : PostView
  reasonRepost : Bool
deriving DecidableEq, Repr

/-- Response of `app.bsky.feed.getAuthorFeed`. -/
structure GetAuthorFeedResponse where
  feed : List FeedViewPost
  cursor : Option String
deriving DecidableEq, Repr

/-- Response of `app.bsky.feed.getQuotes`. -/
structure GetQuotesResponse where
  posts : List PostView
deriving DecidableEq, Repr

/-- One entry of a thread's `replies`; `isThreadViewPost` records whether its
`$type` is `app.bsky.feed.defs#threadViewPost`. -/
structure ThreadReply where
  isThreadViewPost : Bool
  post : PostView
deriving DecidableEq, Repr

/-- Response of `app.bsky.feed.getPostThread`, reduced to the thread's
direct replies (`thread.thread.replies ?? []`). -/
structure GetPostThreadResponse where
  replies : List ThreadReply
deriving DecidableEq, Repr

/-- Options bag of posts.ts `createPost`. -/
structure CreatePostOptions where
  indexedAt : Option Int
  repostedByDid : Option String
  repostedByHandle : Option String
  replyParentUri : Option String
  replyRootUri : Option String
  quotedUri : Option String
  textPreview : Option String
  likeCount : Option Nat
  repostCount : Option Nat
  replyCount : Option Nat
  quoteCount : Option Nat
deriving DecidableEq, Repr

/-- Build a `StoredPost` from API data (posts.ts `createPost`); `now` stands
for the `Date.now()` stamped into `fetchedAt`. -/
def createPost (now : Int) (uri cid authorDid authorHandle : String)
    (createdAt : Int) (postType : PostType) (options : CreatePostOptions) :
    StoredPost :=
  { uri := uri, cid := cid, authorDid := authorDid,
    authorHandle := authorHandle, createdAt := createdAt,
    indexedAt := options.indexedAt.getD createdAt, postType := postType,
    repostedByDid := options.repostedByDid,
    repostedByHandle := options.repostedByHandle,
    replyParentUri := options.replyParentUri,
    replyRootUri := options.replyRootUri, quotedUri := options.quotedUri,
    textPreview := options.textPreview.map (fun s => s.take 200),
    likeCount := options.likeCount.getD 0,
    repostCount := options.repostCount.getD 0,
    replyCount := options.replyCount.getD 0,
    quoteCount := options.quoteCount.getD 0, fetchedAt := now }

/-! ## The persisted world

The six IndexedDB stores threaded through the sync engine. The analytics
cache store holds at most the single row keyed 'current'. -/

/-- Snapshot stored by the analytics cache (cache.ts `CachedAnalytics`). -/
structure AnalyticsSnapshot where
  noiseScoringTime : Int
  reciprocityScoringTime : Int
  noiseScores : List NoiseScore
  reciprocityScores : List ReciprocityScore
  totalContributors : Nat
  totalPosts : Nat
deriving DecidableEq, Repr

/-- The six object stores of the extension's IndexedDB database. -/
structure World where
  profiles : List StoredProfile
  posts : List StoredPost
  interactions : List StoredInteraction
  engagements : List StoredEngagement
  syncStates : List SyncState
  analyticsCache : Option AnalyticsSnapshot
deriving DecidableEq, Repr

/-! ## Sync state operations (src/db/sync-state.ts) -/

/-- Read the sync state row for a stage key (sync-state.ts `getSyncState`). -/
def getSyncState (w : World) (key : String) : Option SyncState :=
  w.syncStates.find? (fun s => s.key == key)

/-- Persist a sync state row (sync-state.ts `saveSyncState`). -/
def saveSyncState (w : World) (state : SyncState) : World :=
  { w with syncStates := storePut w.syncStates (fun s => s.key) state }

/-- A `Partial<Omit<SyncState, 'key'>>` update; `none` stands for an absent
or undefined property (`??` treats both alike). -/
structure SyncStatePatch where
  lastCursor : Option String
  lastSyncAt : Option Int
  itemsProcessed : Option Nat
  status : Option SyncStatus
  error : Option String
deriving DecidableEq, Repr

/-- Merge a partial update into the stored row (sync-state.ts
`updateSyncState`): every field falls back to the existing row and then to a
default, except `error`, which is taken from the update alone. -/
def updateSyncState (w : World) (key : String) (update : SyncStatePatch) :
    World :=
  let existing := getSyncState w key
  let updated : SyncState :=
    { key := key,
      lastCursor := update.lastCursor <|> existing.bind (fun e => e.lastCursor),
      lastSyncAt := update.lastSyncAt.getD
        ((existing.map (fun e => e.lastSyncAt)).getD 0),
      itemsProcessed := update.itemsProcessed.getD
        ((existing.map (fun e => e.itemsProcessed)).getD 0),
      status := update.status.getD
        ((existing.map (fun e => e.status)).getD .idle),
      error := update.error }
  saveSyncState w updated

/-- Mark a stage as started (sync-state.ts `startSync`). -/
def startSync (w : World) (key : String) : World :=
  updateSyncState w key
    { lastCursor := none, lastSyncAt := none, itemsProcessed := none,
      status := some .syncing, error := none }

/-- Mark a stage as completed (sync-state.ts `completeSync`). -/
def completeSync (w : World) (now : Int) (key : String)
    (cursor : Option String) (itemsProcessed : Option Nat) : World :=
  let existing := getSyncState w key
  updateSyncState w key
    { lastCursor := cursor <|> existing.bind (fun e => e.lastCursor),
      lastSyncAt := some now,
      itemsProcessed :=
        itemsProcessed <|> existing.map (fun e => e.itemsProcessed),
      status := some .idle, error := none }

/-- Mark a stage as failed (sync-state.ts `failSync`). -/
def failSync (w : World) (key : String) (error : String) : World :=
  updateSyncState w key
    { lastCursor := none, lastSyncAt := none, itemsProcessed := none,
      status := some .error, error := some error }

/-! ## Profile operations (src/db/profiles.ts) -/

/-- Read one profile by DID (profiles.ts `getProfile`). -/
def getProfile (w : World) (did : String) : Option StoredProfile :=
  w.profiles.find? (fun p => p.did == did)

/-- Persist a batch of profiles (profiles.ts `saveProfiles`, a `putBatch`). -/
def saveProfiles (w : World) (items : List StoredProfile) : World :=
  { w with profiles :=
      items.foldl (fun s p => storePut s (fun q => q.did) p) w.profiles }

/-- Persist a batch of posts (posts.ts `savePosts`). -/
def savePosts (w : World) (items : List StoredPost) : World :=
  { w with posts :=
      items.foldl (fun s p => storePut s (fun q => q.uri) p) w.posts }

/-- A `Partial<StoredProfile>`. The object-spread in `mergeProfile`
distinguishes an absent key (outer `none`: the existing value survives) from
a key present with value `undefined` (for the optional string fields:
`some none`, which overwrites). -/
structure ProfilePatch where
  did : Option String
  handle : Option String
  displayName : Option (Option String)
  avatar : Option (Option String)
  followsYou : Option Bool
  youFollow : Option Bool
  isMutual : Option Bool
  lastUpdated : Option Int
deriving DecidableEq, Repr

/-- Merge new profile data with an existing profile (profiles.ts
`mergeProfile`): without an existing row the update's fields are defaulted
(`|| ''` on the strings, `?? false` on the booleans); with one, present keys
overwrite; `isMutual` is recomputed and `lastUpdated` stamped either way. -/
def mergeProfile (now : Int) (existing : Option StoredProfile)
    (update : ProfilePatch) : StoredProfile :=
  match existing with
  | none =>
    { did := update.did.getD "", handle := update.handle.getD "",
      displayName := update.displayName.join, avatar := update.avatar.join,
      followsYou := update.followsYou.getD false,
      youFollow := update.youFollow.getD false,
      isMutual := update.followsYou.getD false && update.youFollow.getD false,
      lastUpdated := now }
  | some e =>
    let followsYou := update.followsYou.getD e.followsYou
    let youFollow := update.youFollow.getD e.youFollow
    { did := update.did.getD e.did, handle := update.handle.getD e.handle,
      displayName := update.displayName.getD e.displayName,
      avatar := update.avatar.getD e.avatar, followsYou := followsYou,
      youFollow := youFollow, isMutual := followsYou && youFollow,
      lastUpdated := now }

/-! ## Engagement recorders (src/db/engagements.ts) -/

/-- Record a like on your post (engagements.ts `recordLikeReceived`). -/
def recordLikeReceived (now : Int) (w : World)
    (targetUri fromDid fromHandle : String) : World :=
  let engagement := createEngagement .like targetUri fromDid fromHandle none
    now
  { w with engagements := saveEngagement w.engagements engagement }

/-- Record a reply to your post (engagements.ts `recordReplyReceived`). -/
def recordReplyReceived (now : Int) (w : World)
    (targetUri fromDid fromHandle theirReplyUri : String) : World :=
  let engagement := createEngagement .reply targetUri fromDid fromHandle
    (some theirReplyUri) now
  { w with engagements := saveEngagement w.engagements engagement }

/-- Record a quote of your post (engagements.ts `recordQuoteReceived`). -/
def recordQuoteReceived (now : Int) (w : World)
    (targetUri fromDid fromHandle theirQuoteUri : String) : World :=
  let engagement := createEngagement .quote targetUri fromDid fromHandle
    (some theirQuoteUri) now
  { w with engagements := saveEngagement w.engagements engagement }

/-! ## Sync stages (src/background/*, src/sync-engagements.ts)

Network and database call outcomes are drawn from a `SyncEnv` oracle: each
pagination run reads its pages in fetch order, and a page entry of
`.error e` stands for that call throwing `e` (an ApiError, AuthError or
fetch rejection). `now` stands for the `Date.now()` samples of the run.
Loop recursion is bounded by `pageFuel`; exhausting it yields a
distinguished model-level error. -/

/-- Environment of one sync run: the oracle of call outcomes. -/
structure SyncEnv where
  now : Int
  currentDid : Option String
  followsPages : Nat → Except JsError GetFollowsResponse
  followersPages : Nat → Except JsError GetFollowersResponse
  profilesFail : Option JsError
  authorFeedPages : String → Nat → Except JsError GetAuthorFeedResponse
  likesPages : String → Nat → Except JsError GetLikesResponse
  quotesResponse : String → Except JsError GetQuotesResponse
  threadResponse : String → Except JsError GetPostThreadResponse
  pageFuel : Nat

/-- Model-level error produced when the recursion bound is exhausted before
the page source ends the data. -/
def fuelError : JsError := .other "model: page fuel exhausted"

/-- Run the `getAllFollows` pagination to completion. -/
def runFollowsPager (pages : Nat → Except JsError GetFollowsResponse)
    (fuel : Nat) : Except JsError (List ProfileView) :=
  match getAllFollowsLoop pages 0 fuel with
  | none => .error fuelError
  | some r => r

/-- Run the `getAllFollowers` pagination to completion. -/
def runFollowersPager (pages : Nat → Except JsError GetFollowersResponse)
    (fuel : Nat) : Except JsError (List ProfileView) :=
  match getAllFollowersLoop pages 0 fuel with
  | none => .error fuelError
  | some r => r

/-- Run the `getAllLikes` pagination to completion. -/
def runLikesPager (pages : Nat → Except JsError GetLikesResponse)
    (fuel : Nat) : Except JsError (List LikeEntry) :=
  match getAllLikesLoop pages 0 fuel with
  | none => .error fuelError
  | some r => r

/-- Outcome of the stage-level `getAllProfiles()` database read in
`syncPosts`: the store's rows, or an injected database failure. -/
def getAllProfilesCall (env : SyncEnv) (w : World) :
    Except JsError (List StoredProfile) :=
  match env.profilesFail with
  | some e => .error e
  | none => .ok w.profiles

/-- Sync follows (sync-follows.ts `syncFollows`): fetch every followed
profile, store them with `youFollow := true`, and record stage completion;
a throw after `startSync` is recorded via `failSync` and re-thrown. -/
def syncFollows (env : SyncEnv) (w : World) : Except JsError Nat × World :=
  match env.currentDid with
  | none => (.error (.error "Not authenticated"), w)
  | some _ =>
    let w1 := startSync w "follows"
    match runFollowsPager env.followsPages env.pageFuel with
    | .error e => (.error e, failSync w1 "follows" (errMessage e))
    | .ok follows =>
      let followProfiles := follows.map (fun profile =>
        ({ did := profile.did, handle := profile.handle,
           displayName := profile.displayName, avatar := profile.avatar,
           youFollow := true, followsYou := false, isMutual := false,
           lastUpdated := env.now } : StoredProfile))
      let w2 := saveProfiles w1 followProfiles
      let w3 := completeSync w2 env.now "follows" none (some follows.length)
      (.ok follows.length, w3)

/-- Sync followers (sync-follows.ts `syncFollowers`): fetch every follower,
merge each into any existing profile with `followsYou := true`, store the
merged rows, and record stage completion. -/
def syncFollowers (env : SyncEnv) (w : World) : Except JsError Nat × World :=
  match env.currentDid with
  | none => (.error (.error "Not authenticated"), w)
  | some _ =>
    let w1 := startSync w "followers"
    match runFollowersPager env.followersPages env.pageFuel with
    | .error e => (.error e, failSync w1 "followers" (errMessage e))
    | .ok followers =>
      let followerProfiles := followers.map (fun profile =>
        mergeProfile env.now (getProfile w1 profile.did)
          { did := some profile.did, handle := some profile.handle,
            displayName := some profile.displayName,
            avatar := some profile.avatar, followsYou := some true,
            youFollow := none, isMutual := none, lastUpdated := none })
      let w2 := saveProfiles w1 followerProfiles
      let w3 := completeSync w2 env.now "followers" none
        (some followers.length)
      (.ok followers.length, w3)

/-- The per-page item loop of sync-posts.ts `syncAuthorFeed`: store each
feed post (tagged repost or quote when applicable); a post older than the
cutoff returns the running count early (`some count`). -/
def processFeedItems (env : SyncEnv) (did handle : String) (cutoff : Int) :
    List FeedViewPost → World → Nat → Option Nat × Nat × World
  | [], w, count => (none, count, w)
  | fp :: rest, w, count =>
    if fp.post.createdAt < cutoff then
      (some count, count, w)
    else
      let storedPost := createPost env.now fp.post.uri fp.post.cid
        fp.post.authorDid fp.post.authorHandle fp.post.createdAt .post
        { indexedAt := some fp.post.indexedAt, repostedByDid := none,
          repostedByHandle := none, replyParentUri := none,
          replyRootUri := none, quotedUri := none,
          textPreview := some fp.post.text,
          likeCount := some (fp.post.likeCount.getD 0),
          repostCount := some (fp.post.repostCount.getD 0),
          replyCount := some (fp.post.replyCount.getD 0),
          quoteCount := some (fp.post.quoteCount.getD 0) }
      let storedPost :=
        if fp.reasonRepost then
          { storedPost with
              postType := .repost
              repostedByDid := some did
              repostedByHandle := some handle }
        else storedPost
      let storedPost :=
        match fp.post.embedRecordUri with
        | some u => { storedPost with postType := .quote, quotedUri := some u }
        | none => storedPost
      let w' := savePosts w [storedPost]
      processFeedItems env did handle cutoff rest w' (count + 1)

/-- The pagination loop of sync-posts.ts `syncAuthorFeed`: fetch pages of
one author's feed until the cutoff is reached or no cursor is returned. -/
def syncAuthorFeed (env : SyncEnv) (did handle : String) (cutoff : Int) :
    Nat → Nat → World → Nat → Except JsError Nat × World
  | 0, _, w, _ => (.error fuelError, w)
  | fuel + 1, idx, w, count =>
    match env.authorFeedPages did idx with
    | .error e => (.error e, w)
    | .ok resp =>
      match processFeedItems env did handle cutoff resp.feed w count with
      | (some finalCount, _, w') => (.ok finalCount, w')
      | (none, count', w') =>
        if jsTruthyStr resp.cursor then
          syncAuthorFeed env did handle cutoff fuel (idx + 1) w' count'
        else (.ok count', w')

/-- One `Promise.allSettled` batch of sync-posts.ts `syncPosts`: per-account
results are isolated, a rejected account contributes nothing to the count. -/
def syncPostsBatchOne (env : SyncEnv) (cutoff : Int)
    (batch : List StoredProfile) (w : World) : Nat × World :=
  batch.foldl (fun acc profile =>
    match syncAuthorFeed env profile.did profile.handle cutoff env.pageFuel 0
        acc.2 0 with
    | (.ok n, w') => (acc.1 + n, w')
    | (.error _, w') => (acc.1, w')) (0, w)

/-- The batched fan-out of sync-posts.ts `syncPosts`: accounts are processed
in slices of `BATCH_SIZE = 10`; `fuel` bounds the slice recursion (each call
site passes the list length, which always suffices). -/
def syncPostsBatches (env : SyncEnv) (cutoff : Int) :
    Nat → List StoredProfile → World → Nat × World
  | _, [], w => (0, w)
  | 0, _ :: _, w => (0, w)
  | fuel + 1, p :: ps, w =>
    let b := syncPostsBatchOne env cutoff ((p :: ps).take 10) w
    let r := syncPostsBatches env cutoff fuel ((p :: ps).drop 10) b.2
    (b.1 + r.1, r.2)

/-- Sync posts from followed accounts (sync-posts.ts `syncPosts`): record
`syncing`, list local profiles, fan out over the followed ones in batches,
then record completion; a stage-level throw is recorded via `failSync` and
re-thrown. -/
def syncPosts (env : SyncEnv) (daysBack : Int) (w : World) :
    Except JsError Nat × World :=
  let w1 := startSync w "timeline"
  match getAllProfilesCall env w1 with
  | .error e => (.error e, failSync w1 "timeline" (errMessage e))
  | .ok profiles =>
    let following := profiles.filter (fun p => p.youFollow)
    let cutoff := env.now - daysBack * 86400000
    let r := syncPostsBatches env cutoff following.length following w1
    let w3 := completeSync r.2 env.now "timeline" none (some r.1)
    (.ok r.1, w3)

/-- The likes block of sync-engagements.ts: fetch all likes of one of your
posts and record each; a throw is caught, logged and contributes nothing. -/
def processLikes (env : SyncEnv) (uri : String) (w : World) (count : Nat) :
    World × Nat :=
  match runLikesPager (env.likesPages uri) env.pageFuel with
  | .error _ => (w, count)
  | .ok likes =>
    likes.foldl (fun acc like =>
      (recordLikeReceived env.now acc.1 uri like.actor.did like.actor.handle,
        acc.2 + 1)) (w, count)

/-- The quotes block of sync-engagements.ts (same per-item isolation). -/
def processQuotes (env : SyncEnv) (uri : String) (w : World) (count : Nat) :
    World × Nat :=
  match env.quotesResponse uri with
  | .error _ => (w, count)
  | .ok quotes =>
    quotes.posts.foldl (fun acc quote =>
      (recordQuoteReceived env.now acc.1 uri quote.authorDid
        quote.authorHandle quote.uri, acc.2 + 1)) (w, count)

/-- The replies block of sync-engagements.ts: record each direct thread
reply whose entry is a `threadViewPost`. -/
def processReplies (env : SyncEnv) (uri : String) (w : World) (count : Nat) :
    World × Nat :=
  match env.threadResponse uri with
  | .error _ => (w, count)
  | .ok thread =>
    thread.replies.foldl (fun acc reply =>
      if reply.isThreadViewPost then
        (recordReplyReceived env.now acc.1 uri reply.post.authorDid
          reply.post.authorHandle reply.post.uri, acc.2 + 1)
      else acc) (w, count)

/-- The per-post loop of sync-engagements.ts `syncEngagements`: process the
likes, quotes and replies of each of your posts; a post older than the
cutoff returns the running count early. -/
def processEngagementPosts (env : SyncEnv) (cutoff : Int) :
    List FeedViewPost → World → Nat → Option Nat × Nat × World
  | [], w, count => (none, count, w)
  | fp :: rest, w, count =>
    if fp.post.createdAt < cutoff then
      (some count, count, w)
    else
      let a := processLikes env fp.post.uri w count
      let b := processQuotes env fp.post.uri a.1 a.2
      let c := processReplies env fp.post.uri b.1 b.2
      processEngagementPosts env cutoff rest c.1 c.2

/-- The pagination loop of sync-engagements.ts `syncEngagements`; both
normal exits run `completeSync` before returning, as the source does. -/
def syncEngagementsLoop (env : SyncEnv) (myDid : String) (cutoff : Int) :
    Nat → Nat → World → Nat → Except JsError Nat × World
  | 0, _, w, _ => (.error fuelError, w)
  | fuel + 1, idx, w, count =>
    match env.authorFeedPages myDid idx with
    | .error e => (.error e, w)
    | .ok resp =>
      match processEngagementPosts env cutoff resp.feed w count with
      | (some finalCount, _, w') =>
        (.ok finalCount,
          completeSync w' env.now "my-posts" none (some finalCount))
      | (none, count', w') =>
        if jsTruthyStr resp.cursor then
          syncEngagementsLoop env myDid cutoff fuel (idx + 1) w' count'
        else
          (.ok count', completeSync w' env.now "my-posts" none (some count'))

/-- Sync engagements on your posts (sync-engagements.ts `syncEngagements`). -/
def syncEngagements (env : SyncEnv) (daysBack : Int) (w : World) :
    Except JsError Nat × World :=
  match env.currentDid with
  | none => (.error (.error "Not authenticated"), w)
  | some myDid =>
    let w1 := startSync w "my-posts"
    let cutoff := env.now - daysBack * 86400000
    match syncEngagementsLoop env myDid cutoff env.pageFuel 0 w1 0 with
    | (.ok n, w') => (.ok n, w')
    | (.error e, w') => (.error e, failSync w' "my-posts" (errMessage e))

/-! ## Sync orchestrator (src/background/sync-manager.ts) -/

/-- Options of `runFullSync` (sync-manager.ts `SyncOptions`), spread over
`DEFAULT_SYNC_OPTIONS`; `none` stands for an absent key, so the default
applies. -/
structure SyncOptions where
  includeFollows : Option Bool
  includeFollowers : Option Bool
  includePosts : Option Bool
  includeEngagements : Option Bool
  postsWindow : Option Int
  engagementsWindow : Option Int
deriving DecidableEq, Repr

/-- One guarded stage block of sync-manager.ts `runFullSync`: each stage
runs only when its option is enabled and only when no earlier stage threw;
a stage error aborts the remaining stages and propagates. -/
def runStage (enabled : Bool) (stage : World → Except JsError Nat × World)
    (acc : Except JsError Unit × World) : Except JsError Unit × World :=
  match acc with
  | (.error e, w) => (.error e, w)
  | (.ok _, w) =>
    if enabled then
      match stage w with
      | (.error e, w1) => (.error e, w1)
      | (.ok _, w1) => (.ok (), w1)
    else (.ok (), w)

/-- Run all enabled sync stages in order (sync-manager.ts `runFullSync`):
follows, followers, posts, engagements, with options spread over
`DEFAULT_SYNC_OPTIONS`. The surrounding try/catch only logs and re-throws,
so a failing stage aborts the remaining stages and the error propagates.
The rate-limiter `getStats` calls at entry and exit only log and do not
touch the stores. -/
def runFullSync (options : SyncOptions) (env : SyncEnv) (w : World) :
    Except JsError Unit × World :=
  runStage (options.includeEngagements.getD true)
    (syncEngagements env (options.engagementsWindow.getD 7))
    (runStage (options.includePosts.getD true)
      (syncPosts env (options.postsWindow.getD 7))
      (runStage (options.includeFollowers.getD true) (syncFollowers env)
        (runStage (options.includeFollows.getD true) (syncFollows env)
          (.ok (), w))))

/-! ## Analytics cache (src/analytics/cache.ts) -/

/-- Cache time-to-live, 15 minutes (cache.ts `CACHE_DURATION`). -/
def CACHE_DURATION : Int := 15 * 60 * 1000

/-- Compute all analytics and store the snapshot under the fixed cache key
(cache.ts `computeAndCacheAnalytics`). -/
def computeAndCacheAnalytics (w : World) (now : Int) :
    AnalyticsSnapshot × World :=
  let noiseScores := computeAllNoiseScores w.posts w.profiles w.interactions
    w.engagements
  let reciprocityScores := computeAllReciprocityScores w.posts w.interactions
    w.engagements
  let contributions := aggregateUserContributions w.posts
  let totalPosts := (contributions.map (fun c => c.2.totalCount)).sum
  let analytics : AnalyticsSnapshot :=
    { noiseScoringTime := now, reciprocityScoringTime := now,
      noiseScores := noiseScores, reciprocityScores := reciprocityScores,
      totalContributors := contributions.length, totalPosts := totalPosts }
  (analytics, { w with analyticsCache := some analytics })

/-- Return the cached snapshot while it is fresh, else recompute and cache
(cache.ts `getAnalytics`). -/
def getAnalytics (w : World) (now : Int) : AnalyticsSnapshot × World :=
  match w.analyticsCache with
  | some cached =>
    if now - cached.noiseScoringTime < CACHE_DURATION then (cached, w)
    else computeAndCacheAnalytics w now
  | none => computeAndCacheAnalytics w now

/-- Clear the snapshot store unconditionally (cache.ts
`invalidateAnalyticsCache`). -/
def invalidateAnalyticsCache (w : World) : World :=
  { w with analyticsCache := none }

/-- High-noise users (cache.ts `getNoiseOutliers`). -/
def getNoiseOutliers (w : World) (now : Int) (threshold : Rat) :
    List NoiseScore × World :=
  let (analytics, w') := getAnalytics w now
  (analytics.noiseScores.filter (fun s => decide (threshold < s.score)), w')

/-- Non-reciprocal relationships (cache.ts `getNonReciprocal`): the scores
with positive engagement from you and a score under the threshold. -/
def getNonReciprocal (w : World) (now : Int) (threshold : Rat) :
    List ReciprocityScore × World :=
  let (analytics, w') := getAnalytics w now
  (analytics.reciprocityScores.filter
    (fun s => decide (0 < s.yourEngagement ∧ s.score < threshold)), w')

/-! ## Rate limiter (src/api/rate-limiter.ts)

State of a `RateLimiter` instance: the `requestTimes` history and
`lastRequestTime`. `waitForSlot` is embedded twice, at two levels of
granularity matching two uses:

* `waitForSlot` runs one complete acquisition atomically (no interleaving),
  returning the grant time and the successor state; sleeps are modelled by
  advancing the sampled clock by exactly the requested duration.
* `enterStep` / `wakeStep` split the same code at its `await` suspension
  points, so that logically concurrent acquisitions can interleave; a
  small-step relation `LimiterStep` lets a scheduler run any number of
  callers against the shared state. -/

/-- Limiter configuration (rate-limiter.ts `RateLimiterConfig`). -/
structure RateLimiterConfig where
  maxRequests : Nat
  windowMs : Int
  minDelayMs : Int
deriving DecidableEq, Repr

/-- The default configuration: 2500 requests per 5 minutes, 50 ms spacing. -/
def DEFAULT_RATE_LIMIT_CONFIG : RateLimiterConfig :=
  { maxRequests := 2500, windowMs := 5 * 60 * 1000, minDelayMs := 50 }

/-- The tail of `waitForSlot` after the quota check: sleep out the remainder
of `minDelayMs` if needed, then push the grant onto the pruned history and
update `lastRequestTime`. Returns (grant, requestTimes, lastRequestTime). -/
def recordSlot (cfg : RateLimiterConfig) (pruned : List Int)
    (last now : Int) : Int × List Int × Int :=
  let grant := if now - last < cfg.minDelayMs then last + cfg.minDelayMs
    else now
  (grant, pruned ++ [grant], grant)

/-- One atomic acquisition (rate-limiter.ts `waitForSlot`): prune entries
older than the window; while at the quota, sleep until the oldest entry
expires and re-check (the recursive call, with the clock advanced by the
sleep); then enforce the minimum delay and record the grant. With an empty
pruned history the source's quota branch reads `requestTimes[0]` as
undefined, making `waitTime` NaN, and falls through to the record step —
that degenerate case (possible only when `maxRequests = 0`) is the first
match arm. -/
def waitForSlot (cfg : RateLimiterConfig) (times : List Int)
    (last now : Int) : Int × List Int × Int :=
  match hp : times.filter (fun t => now - t < cfg.windowMs) with
  | [] => recordSlot cfg [] last now
  | oldest :: rest =>
    if cfg.maxRequests ≤ (oldest :: rest).length ∧
        0 < oldest + cfg.windowMs - now then
      waitForSlot cfg (oldest :: rest) last (oldest + cfg.windowMs)
    else
      recordSlot cfg (oldest :: rest) last now
termination_by (times.filter (fun t => now - t < cfg.windowMs)).length
decreasing_by
  rw [hp, List.filter_cons]
  have hno : (decide (oldest + cfg.windowMs - oldest < cfg.windowMs)) = false := by
    simp only [decide_eq_false_iff_not]
    omega
  simp only [hno, Bool.false_eq_true, if_false, List.length_cons]
  exact Nat.lt_succ_of_le (List.length_filter_le _ rest)

/-- A serial sequence of acquisitions against one limiter instance: each
call starts `d` milliseconds (`d ≥ 0`) after the previous acquisition
returned, so no two acquisitions overlap. Returns the grant times. -/
def runSerial (cfg : RateLimiterConfig) :
    List Int → Int → Int → List Nat → List Int
  | _, _, _, [] => []
  | times, last, prev, d :: ds =>
    let r := waitForSlot cfg times last (prev + d)
    r.1 :: runSerial cfg r.2.1 r.2.2 r.1 ds

/-- Program counter of one logically concurrent `waitForSlot` caller:
about to run the synchronous entry segment (at or after `callTime`), parked
in the minimum-delay sleep, or finished with a recorded grant. -/
inductive CallerState where
  | start (callTime : Int)
  | sleeping (wakeTime : Int)
  | done (grantTime : Int)
deriving DecidableEq, Repr

/-- A configuration of the shared limiter plus its concurrent callers. -/
structure LimiterRun where
  clock : Int
  requestTimes : List Int
  lastRequestTime : Int
  callers : List CallerState
deriving DecidableEq, Repr

/-- The synchronous entry segment of `waitForSlot`, executed atomically at
`clock` (single-threaded cooperative scheduling runs it without
interleaving): prune, then either schedule a quota re-check, park in the
minimum-delay sleep, or record the grant immediately. -/
def enterStep (cfg : RateLimiterConfig) (c : LimiterRun) (i : Nat) :
    LimiterRun :=
  let now := c.clock
  let pruned := c.requestTimes.filter (fun t => now - t < cfg.windowMs)
  let quotaWake : Option Int :=
    if cfg.maxRequests ≤ pruned.length then
      match pruned with
      | oldest :: _ =>
        if 0 < oldest + cfg.windowMs - now then some (oldest + cfg.windowMs)
        else none
      | [] => none
    else none
  match quotaWake with
  | some wake =>
    { c with requestTimes := pruned, callers := c.callers.set i (.start wake) }
  | none =>
    if now - c.lastRequestTime < cfg.minDelayMs then
      { c with
          requestTimes := pruned
          callers := c.callers.set i
            (.sleeping (c.lastRequestTime + cfg.minDelayMs)) }
    else
      { c with
          requestTimes := pruned ++ [now]
          lastRequestTime := now
          callers := c.callers.set i (.done now) }

/-- The resumption of a caller parked in the minimum-delay sleep: record the
grant at the current clock (the code after the `await sleep(...)`). -/
def wakeStep (c : LimiterRun) (i : Nat) : LimiterRun :=
  { c with
      requestTimes := c.requestTimes ++ [c.clock]
      lastRequestTime := c.clock
      callers := c.callers.set i (.done c.clock) }

/-- Small-step interleaving semantics of concurrent `waitForSlot` calls:
time may advance, a caller whose call time has arrived may run its entry
segment, and a sleeping caller whose wake time has arrived may resume. -/
inductive LimiterStep (cfg : RateLimiterConfig) :
    LimiterRun → LimiterRun → Prop where
  | advance (c : LimiterRun) (t : Int) :
      c.clock ≤ t → LimiterStep cfg c { c with clock := t }
  | enter (c : LimiterRun) (i : Nat) (t : Int) :
      c.callers.get? i = some (.start t) → t ≤ c.clock →
      LimiterStep cfg c (enterStep cfg c i)
  | wake (c : LimiterRun) (i : Nat) (t : Int) :
      c.callers.get? i = some (.sleeping t) → t ≤ c.clock →
      LimiterStep cfg c (wakeStep c i)

/-- Reachability in the interleaving semantics. -/
def LimiterReachable (cfg : RateLimiterConfig) :
    LimiterRun → LimiterRun → Prop :=
  Relation.ReflTransGen (LimiterStep cfg)

/-- The grant times the finished callers recorded. -/
def grantsOf (c : LimiterRun) : List Int :=
  c.callers.filterMap (fun s =>
    match s with
    | .done g => some g
    | _ => none)

/-- No two grants lie closer than the configured minimum delay. -/
def minDelaySpaced (cfg : RateLimiterConfig) (grants : List Int) : Prop :=
  List.Pairwise
    (fun a b => cfg.minDelayMs ≤ a - b ∨ cfg.minDelayMs ≤ b - a) grants

instance (cfg : RateLimiterConfig) (grants : List Int) :
    Decidable (minDelaySpaced cfg grants) := by
  unfold minDelaySpaced
  infer_instance

/-- No trailing window interval contains more than `maxRequests` grants. -/
def windowBounded (cfg : RateLimiterConfig) (grants : List Int) : Prop :=
  ∀ T : Int,
    grants.countP (fun g => decide (T - cfg.windowMs < g ∧ g ≤ T)) ≤
      cfg.maxRequests

/-- Bool discriminator for the `instanceof AuthError` distinction: only a
value constructed by the `AuthError` class satisfies it (a plain `ApiError`
with status 401 does not). -/
def ApiThrown.isAuthError : ApiThrown → Bool
  | .authError _ => true
  | _ => false

/-! ## Concrete fixtures used by claim-level theorems -/

/-- A stored original post by did:alice. -/
def alicePost : StoredPost :=
  { uri := "at://alice/1", cid := "c1", authorDid := "did:alice",
    authorHandle := "alice", createdAt := 0, indexedAt := 0,
    postType := .post, repostedByDid := none, repostedByHandle := none,
    replyParentUri := none, replyRootUri := none, quotedUri := none,
    textPreview := none, likeCount := 0, repostCount := 0, replyCount := 0,
    quoteCount := 0, fetchedAt := 0 }

/-- A stored like interaction of the authenticated user targeting a post by
did:alice. -/
def aliceLike (uri : String) : StoredInteraction :=
  { id := "like:" ++ uri, type := .like, targetUri := uri,
    targetAuthorDid := "did:alice", createdAt := 0, yourPostUri := none }

/-- A stored repost interaction targeting a post by did:alice. -/
def aliceRepost : StoredInteraction :=
  { id := "repost:at://alice/1", type := .repost,
    targetUri := "at://alice/1", targetAuthorDid := "did:alice",
    createdAt := 0, yourPostUri := none }

/-- A stored original post by did:bob. -/
def bobPost (n : Nat) : StoredPost :=
  { alicePost with
      uri := "at://bob/" ++ toString n
      authorDid := "did:bob"
      authorHandle := "bob" }

/-- The empty database. -/
def emptyWorld : World :=
  { profiles := [], posts := [], interactions := [], engagements := [],
    syncStates := [], analyticsCache := none }

/-- A sync environment in which every network call throws; only used on
paths that never reach the network. -/
def noApiEnv : SyncEnv :=
  { now := 0, currentDid := some "did:me",
    followsPages := fun _ => .error fuelError,
    followersPages := fun _ => .error fuelError, profilesFail := none,
    authorFeedPages := fun _ _ => .error fuelError,
    likesPages := fun _ _ => .error fuelError,
    quotesResponse := fun _ => .error fuelError,
    threadResponse := fun _ => .error fuelError, pageFuel := 0 }

/-- A sync environment whose stage-level `getAllProfiles()` read throws. -/
def dbFailEnv (e : JsError) : SyncEnv :=
  { noApiEnv with profilesFail := some e }

/-- A reciprocity score row with engagement from you but a zero score. -/
def lowReciprocityRow : ReciprocityScore :=
  { did := "did:alice", handle := "alice", score := 0, yourEngagement := 1,
    theirEngagement := 0, balanced := false }

/-- A cached analytics snapshot holding `lowReciprocityRow`. -/
def cachedSnap : AnalyticsSnapshot :=
  { noiseScoringTime := 0, reciprocityScoringTime := 0, noiseScores := [],
    reciprocityScores := [lowReciprocityRow], totalContributors := 0,
    totalPosts := 0 }

/-- A world whose analytics cache holds `cachedSnap`. -/
def cachedWorld : World :=
  { emptyWorld with analyticsCache := some cachedSnap }

/-- Two-page follows source used by the pagination witness. -/
def witnessFollowsPages : Nat → GetFollowsResponse := fun i =>
  if i = 0 then
    { follows := [⟨"did:a", "a", none, none⟩, ⟨"did:b", "b", none, none⟩],
      cursor := some "next" }
  else
    { follows := [⟨"did:c", "c", none, none⟩], cursor := none }

/-- One-page likes source used by the pagination witness. -/
def witnessLikesPages : Nat → GetLikesResponse := fun _ =>
  { likes := [], cursor := none }

/-- Initial configuration of the rate-limiter race: one caller arriving at
t=1000 against a fresh limiter, then two callers both arriving at t=1010. -/
def raceInit : LimiterRun :=
  { clock := 1000, requestTimes := [], lastRequestTime := 0,
    callers := [.start 1000, .start 1010, .start 1010] }

/-- The configuration the race trace below reaches: all three callers done,
the two t=1010 callers both granted at t=1050. -/
def raceFinal : LimiterRun :=
  { clock := 1050, requestTimes := [1000, 1050, 1050],
    lastRequestTime := 1050,
    callers := [.done 1000, .done 1050, .done 1050] }

/-! # Theorems

Helper lemmas come first, then one theorem per claim (with witnesses and
counterexamples where the claim's status requires them). -/

/-! ## Keyed upsert lemmas -/

theorem storePut_eq_map {α : Type} (store : List α) (key : α → String)
    (x : α) (h : store.any (fun z => key z == key x) = true) :
    storePut store key x =
      store.map (fun z => if key z == key x then x else z) := by
  unfold storePut
  rw [if_pos h]

theorem storePut_eq_append {α : Type} (store : List α) (key : α → String)
    (x : α) (h : store.any (fun z => key z == key x) = false) :
    storePut store key x = store ++ [x] := by
  unfold storePut
  rw [if_neg]
  simp [h]

theorem exists_key_storePut {α : Type} (store : List α) (key : α → String)
    (x : α) : ∃ z ∈ storePut store key x, key z = key x := by
  by_cases h : store.any (fun z => key z == key x) = true
  · rw [storePut_eq_map store key x h]
    rcases List.any_eq_true.mp h with ⟨z, hz, hkz⟩
    refine ⟨x, List.mem_map.mpr ⟨z, hz, ?_⟩, rfl⟩
    rw [if_pos hkz]
  · have h' : store.any (fun z => key z == key x) = false := by simpa using h
    rw [storePut_eq_append store key x h']
    refine ⟨x, ?_, rfl⟩
    simp

theorem mem_storePut_key_eq {α : Type} (store : List α) (key : α → String)
    (x z : α) (hz : z ∈ storePut store key x) (hk : key z = key x) : z = x := by
  by_cases h : store.any (fun w => key w == key x) = true
  · rw [storePut_eq_map store key x h] at hz
    rcases List.mem_map.mp hz with ⟨w, hw, hfw⟩
    by_cases hkw : (key w == key x) = true
    · rw [if_pos hkw] at hfw
      exact hfw.symm
    · rw [if_neg hkw] at hfw
      exfalso
      apply (by simpa using hkw : ¬key w = key x)
      rw [hfw]
      exact hk
  · have h' : store.any (fun w => key w == key x) = false := by simpa using h
    rw [storePut_eq_append store key x h'] at hz
    rcases List.mem_append.mp hz with hz | hz
    · exfalso
      have htrue : store.any (fun w => key w == key x) = true :=
        List.any_eq_true.mpr ⟨z, hz, by simp [hk]⟩
      rw [htrue] at h'
      cases h'
    · simpa using hz

theorem storePut_any_self {α : Type} (store : List α) (key : α → String)
    (x y : α) (h : key y = key x) :
    (storePut store key x).any (fun z => key z == key y) = true := by
  rcases exists_key_storePut store key x with ⟨z, hz, hk⟩
  exact List.any_eq_true.mpr ⟨z, hz, by simp [hk, h]⟩

theorem storePut_idem {α : Type} (store : List α) (key : α → String)
    (x : α) : storePut (storePut store key x) key x = storePut store key x := by
  have hany := storePut_any_self store key x x rfl
  rw [storePut_eq_map _ key x hany]
  have hfix : ∀ z ∈ storePut store key x,
      (if key z == key x then x else z) = z := by
    intro z hz
    by_cases hk : (key z == key x) = true
    · rw [if_pos hk]
      exact (mem_storePut_key_eq store key x z hz (by simpa using hk)).symm
    · rw [if_neg hk]
  rw [List.map_congr_left hfix]
  simp

theorem length_storePut_same_key {α : Type} (store : List α)
    (key : α → String) (x y : α) (h : key y = key x) :
    (storePut (storePut store key x) key y).length =
      (storePut store key x).length := by
  have hany := storePut_any_self store key x y h
  rw [storePut_eq_map _ key y hany, List.length_map]

/-! ## C8 -/

/-- C8: recording the same Interaction (key `type:targetUri`) or the same
Engagement (key `type:fromDid:targetUri`) twice yields the same stored state
as recording it once; a second recording under the same key overwrites the
existing row, so the row count never grows. -/
theorem c8_idempotent_record (interactionsStore : List StoredInteraction)
    (engagementsStore : List StoredEngagement) (ty : InteractionType)
    (targetUri targetAuthorDid fromDid fromHandle : String)
    (yourPostUri theirPostUri yourPostUri2 theirPostUri2 : Option String)
    (now now2 : Int) :
    (saveInteraction (saveInteraction interactionsStore
        (createInteraction ty targetUri targetAuthorDid yourPostUri now))
        (createInteraction ty targetUri targetAuthorDid yourPostUri now) =
      saveInteraction interactionsStore
        (createInteraction ty targetUri targetAuthorDid yourPostUri now)) ∧
    ((saveInteraction (saveInteraction interactionsStore
        (createInteraction ty targetUri targetAuthorDid yourPostUri now))
        (createInteraction ty targetUri targetAuthorDid yourPostUri2
          now2)).length =
      (saveInteraction interactionsStore
        (createInteraction ty targetUri targetAuthorDid yourPostUri
          now)).length) ∧
    (saveEngagement (saveEngagement engagementsStore
        (createEngagement ty targetUri fromDid fromHandle theirPostUri now))
        (createEngagement ty targetUri fromDid fromHandle theirPostUri now) =
      saveEngagement engagementsStore
        (createEngagement ty targetUri fromDid fromHandle theirPostUri now)) ∧
    ((saveEngagement (saveEngagement engagementsStore
        (createEngagement ty targetUri fromDid fromHandle theirPostUri now))
        (createEngagement ty targetUri fromDid fromHandle theirPostUri2
          now2)).length =
      (saveEngagement engagementsStore
        (createEngagement ty targetUri fromDid fromHandle theirPostUri
          now)).length) := by
  refine ⟨storePut_idem _ _ _, ?_, storePut_idem _ _ _, ?_⟩
  · exact length_storePut_same_key _ _ _ _ rfl
  · exact length_storePut_same_key _ _ _ _ rfl

/-! ## C2 -/

/-- C2 counterexample: the claim says every API request that receives an
HTTP 401 raises `AuthError`, but a public (unauthenticated) request
classifies a 401 as a plain `ApiError` with status 401 — not an instance of
the `AuthError` class. -/
theorem c2_counterexample :
    publicApiRequest (FetchOutcome.response 401 none "") =
      Except.error (.apiError "API error: 401" 401 none) ∧
    (match publicApiRequest (FetchOutcome.response 401 none "") with
      | .error t => t.isAuthError
      | .ok _ => true) = false := by
  exact ⟨rfl, rfl⟩

/-- C2 amended: authenticated requests with a session classify a 401
response as `AuthError` and any other non-2xx response as `ApiError`
carrying the status; public requests classify every non-2xx response —
including a 401 — as `ApiError` carrying the status; a network-level
failure (the fetch rejecting) propagates the underlying error unwrapped on
both paths — the source defines no `TransportError` class. 2xx responses
resolve with the body text. -/
theorem c2_classification_amended (status : Nat)
    (body : Option BskyApiErrorBody) (text : String) (e : JsError) :
    (apiRequest true (.networkFail e) = .error (.raw e)) ∧
    (publicApiRequest (.networkFail e) = .error (.raw e)) ∧
    (∃ m, apiRequest true (.response 401 body text) = .error (.authError m)) ∧
    (responseOk status = false → status ≠ 401 →
      ∃ m c, apiRequest true (.response status body text) =
        .error (.apiError m status c)) ∧
    (responseOk status = false →
      ∃ m c, publicApiRequest (.response status body text) =
        .error (.apiError m status c)) ∧
    (responseOk status = true →
      apiRequest true (.response status body text) = .ok text ∧
      publicApiRequest (.response status body text) = .ok text) := by
  refine ⟨rfl, rfl, ?_, ?_, ?_, ?_⟩
  · refine ⟨jsOrString (body.getD { message := none, errorCode := none }).message
      "Authentication failed", ?_⟩
    simp [apiRequest, responseOk]
  · intro hok h401
    refine ⟨jsOrString (body.getD { message := none, errorCode := none }).message
      ("API error: " ++ toString status),
      (body.getD { message := none, errorCode := none }).errorCode, ?_⟩
    simp [apiRequest, hok, h401]
  · intro hok
    refine ⟨jsOrString (body.getD { message := none, errorCode := none }).message
      ("API error: " ++ toString status),
      (body.getD { message := none, errorCode := none }).errorCode, ?_⟩
    simp [publicApiRequest, hok]
  · intro hok
    constructor
    · simp [apiRequest, hok]
    · simp [publicApiRequest, hok]

/-- C2 witness: the amended classification at concrete inputs — a 500
response on the public path is an `ApiError` and a 204 response resolves. -/
theorem c2_classification_witness :
    responseOk 500 = false ∧ responseOk 204 = true ∧
    (∃ m c, publicApiRequest (.response 500 none "oops") =
      .error (.apiError m 500 c)) ∧
    publicApiRequest (.response 204 none "") = .ok "" := by
  refine ⟨by decide, by decide, ?_, ?_⟩
  · exact (c2_classification_amended 500 none "oops" (.error "x")).2.2.2.2.1
      (by decide)
  · exact ((c2_classification_amended 204 none "" (.error "x")).2.2.2.2.2
      (by decide)).2

/-! ## C9 -/

theorem getAllFollowsLoop_shift
    (pages : Nat → Except JsError GetFollowsResponse) :
    ∀ (fuel i : Nat), getAllFollowsLoop pages (i + 1) fuel =
      getAllFollowsLoop (fun j => pages (j + 1)) i fuel := by
  intro fuel
  induction fuel with
  | zero => intro i; rfl
  | succ f ih =>
    intro i
    simp only [getAllFollowsLoop]
    rw [ih (i + 1)]

theorem getAllLikesLoop_shift
    (pages : Nat → Except JsError GetLikesResponse) :
    ∀ (fuel i : Nat), getAllLikesLoop pages (i + 1) fuel =
      getAllLikesLoop (fun j => pages (j + 1)) i fuel := by
  intro fuel
  induction fuel with
  | zero => intro i; rfl
  | succ f ih =>
    intro i
    simp only [getAllLikesLoop]
    rw [ih (i + 1)]

theorem getAllFollowsLoop_run :
    ∀ (M : Nat) (pages : Nat → GetFollowsResponse),
      (∀ j < M, jsTruthyStr (pages j).cursor = true) →
      jsTruthyStr (pages M).cursor = false →
      ∀ fuel, M < fuel →
        getAllFollowsLoop (fun i => .ok (pages i)) 0 fuel =
          some (.ok ((List.range (M + 1)).flatMap
            (fun i => (pages i).follows))) := by
  intro M
  induction M with
  | zero =>
    intro pages _ hstop fuel hf
    match fuel, hf with
    | f + 1, _ =>
      have h1 : List.range 1 = [0] := rfl
      simp [getAllFollowsLoop, hstop, h1]
  | succ M ih =>
    intro pages hgo hstop fuel hf
    match fuel, hf with
    | f + 1, hf =>
      have h0 : jsTruthyStr (pages 0).cursor = true :=
        hgo 0 (Nat.succ_pos M)
      have hrec := getAllFollowsLoop_shift (fun i => .ok (pages i)) f 0
      have hih := ih (fun j => pages (j + 1))
        (fun j hj => hgo (j + 1) (Nat.succ_lt_succ hj)) hstop f
        (Nat.lt_of_succ_lt_succ hf)
      simp only [getAllFollowsLoop, h0, if_true]
      rw [hrec, hih]
      simp [List.range_succ_eq_map, List.flatMap_cons, List.flatMap_map,
        Nat.succ_eq_add_one]

theorem getAllLikesLoop_run :
    ∀ (M : Nat) (pages : Nat → GetLikesResponse),
      (∀ j < M, jsTruthyStr (pages j).cursor = true) →
      jsTruthyStr (pages M).cursor = false →
      ∀ fuel, M < fuel →
        getAllLikesLoop (fun i => .ok (pages i)) 0 fuel =
          some (.ok ((List.range (M + 1)).flatMap
            (fun i => (pages i).likes))) := by
  intro M
  induction M with
  | zero =>
    intro pages _ hstop fuel hf
    match fuel, hf with
    | f + 1, _ =>
      have h1 : List.range 1 = [0] := rfl
      simp [getAllLikesLoop, hstop, h1]
  | succ M ih =>
    intro pages hgo hstop fuel hf
    match fuel, hf with
    | f + 1, hf =>
      have h0 : jsTruthyStr (pages 0).cursor = true :=
        hgo 0 (Nat.succ_pos M)
      have hrec := getAllLikesLoop_shift (fun i => .ok (pages i)) f 0
      have hih := ih (fun j => pages (j + 1))
        (fun j hj => hgo (j + 1) (Nat.succ_lt_succ hj)) hstop f
        (Nat.lt_of_succ_lt_succ hf)
      simp only [getAllLikesLoop, h0, if_true]
      rw [hrec, hih]
      simp [List.range_succ_eq_map, List.flatMap_cons, List.flatMap_map,
        Nat.succ_eq_add_one]

/-- C9: when the page source eventually returns a response without a
(truthy) cursor, the cursor-following fetch-all loops of `getAllFollows`
and `getAllLikes` terminate — they consume exactly the pages up to the
first cursor-less one and, given any recursion budget beyond that point,
return the concatenation of the per-page items, whose length is the sum of
the per-page item counts. -/
theorem c9_pagination_terminates (pagesF : Nat → GetFollowsResponse)
    (pagesL : Nat → GetLikesResponse) (NF NL : Nat)
    (hF : jsTruthyStr (pagesF NF).cursor = false)
    (hL : jsTruthyStr (pagesL NL).cursor = false) :
    (∃ M ≤ NF, (∀ j < M, jsTruthyStr (pagesF j).cursor = true) ∧
      jsTruthyStr (pagesF M).cursor = false ∧
      (∀ fuel, M < fuel →
        getAllFollowsLoop (fun i => .ok (pagesF i)) 0 fuel =
          some (.ok ((List.range (M + 1)).flatMap
            (fun i => (pagesF i).follows)))) ∧
      ((List.range (M + 1)).flatMap (fun i => (pagesF i).follows)).length =
        ((List.range (M + 1)).map (fun i => (pagesF i).follows.length)).sum) ∧
    (∃ M ≤ NL, (∀ j < M, jsTruthyStr (pagesL j).cursor = true) ∧
      jsTruthyStr (pagesL M).cursor = false ∧
      (∀ fuel, M < fuel →
        getAllLikesLoop (fun i => .ok (pagesL i)) 0 fuel =
          some (.ok ((List.range (M + 1)).flatMap
            (fun i => (pagesL i).likes)))) ∧
      ((List.range (M + 1)).flatMap (fun i => (pagesL i).likes)).length =
        ((List.range (M + 1)).map (fun i => (pagesL i).likes.length)).sum) := by
  constructor
  · have hex : ∃ n, jsTruthyStr (pagesF n).cursor = false := ⟨NF, hF⟩
    refine ⟨Nat.find hex, Nat.find_min' hex hF, ?_, Nat.find_spec hex, ?_, ?_⟩
    · intro j hj
      have := Nat.find_min hex hj
      simpa using this
    · intro fuel hfuel
      exact getAllFollowsLoop_run (Nat.find hex) pagesF
        (fun j hj => by simpa using Nat.find_min hex hj)
        (Nat.find_spec hex) fuel hfuel
    · rw [List.length_flatMap]
      rfl
  · have hex : ∃ n, jsTruthyStr (pagesL n).cursor = false := ⟨NL, hL⟩
    refine ⟨Nat.find hex, Nat.find_min' hex hL, ?_, Nat.find_spec hex, ?_, ?_⟩
    · intro j hj
      have := Nat.find_min hex hj
      simpa using this
    · intro fuel hfuel
      exact getAllLikesLoop_run (Nat.find hex) pagesL
        (fun j hj => by simpa using Nat.find_min hex hj)
        (Nat.find_spec hex) fuel hfuel
    · rw [List.length_flatMap]
      rfl

/-- C9 witness: a two-page follows source and a one-page likes source
satisfy the hypotheses concretely, so both loops terminate with the summed
item counts. -/
theorem c9_pagination_witness :
    jsTruthyStr (witnessFollowsPages 1).cursor = false ∧
    jsTruthyStr (witnessLikesPages 0).cursor = false ∧
    ((∃ M ≤ 1, (∀ j < M, jsTruthyStr (witnessFollowsPages j).cursor = true) ∧
      jsTruthyStr (witnessFollowsPages M).cursor = false ∧
      (∀ fuel, M < fuel →
        getAllFollowsLoop (fun i => .ok (witnessFollowsPages i)) 0 fuel =
          some (.ok ((List.range (M + 1)).flatMap
            (fun i => (witnessFollowsPages i).follows)))) ∧
      ((List.range (M + 1)).flatMap
        (fun i => (witnessFollowsPages i).follows)).length =
        ((List.range (M + 1)).map
          (fun i => (witnessFollowsPages i).follows.length)).sum) ∧
    (∃ M ≤ 0, (∀ j < M, jsTruthyStr (witnessLikesPages j).cursor = true) ∧
      jsTruthyStr (witnessLikesPages M).cursor = false ∧
      (∀ fuel, M < fuel →
        getAllLikesLoop (fun i => .ok (witnessLikesPages i)) 0 fuel =
          some (.ok ((List.range (M + 1)).flatMap
            (fun i => (witnessLikesPages i).likes)))) ∧
      ((List.range (M + 1)).flatMap
        (fun i => (witnessLikesPages i).likes)).length =
        ((List.range (M + 1)).map
          (fun i => (witnessLikesPages i).likes.length)).sum)) := by
  refine ⟨by decide, by decide, ?_⟩
  exact c9_pagination_terminates witnessFollowsPages witnessLikesPages 1 0
    (by decide) (by decide)

/-! ## C6 -/

theorem findIdx_sorted_descend (t : Nat) :
    ∀ (l : List Nat) (i : Nat), List.Sorted natDescend l →
      (∃ x ∈ l, x ≤ t) →
      List.findIdx? (fun c => decide (c ≤ t)) l i =
        some (l.countP (fun c => decide (t < c)) + i) := by
  intro l
  induction l with
  | nil =>
    intro i _ hex
    rcases hex with ⟨x, hx, _⟩
    cases hx
  | cons a l ih =>
    intro i hs hex
    rcases List.sorted_cons.mp hs with ⟨hall, hs'⟩
    rw [List.findIdx?_cons]
    by_cases ha : a ≤ t
    · rw [if_pos (by simpa using ha)]
      have hcount : (a :: l).countP (fun c => decide (t < c)) = 0 := by
        rw [List.countP_eq_zero]
        intro x hx
        rcases List.mem_cons.mp hx with rfl | hx'
        · simpa using Nat.not_lt.mpr ha
        · exact by simpa using Nat.not_lt.mpr (le_trans (hall x hx') ha)
      rw [hcount, Nat.zero_add]
    · rw [if_neg (by simpa using ha)]
      have hex' : ∃ x ∈ l, x ≤ t := by
        rcases hex with ⟨x, hx, hxt⟩
        rcases List.mem_cons.mp hx with rfl | hx'
        · exact absurd hxt ha
        · exact ⟨x, hx', hxt⟩
      rw [ih (i + 1) hs' hex']
      have hpa : (decide (t < a)) = true := by
        simpa using Nat.lt_of_not_le ha
      simp only [List.countP_cons, hpa, if_true, Option.some.injEq]
      omega

theorem volumePercentile_closed_form (posts : List StoredPost)
    (profiles : List StoredProfile) (interactions : List StoredInteraction)
    (engagements : List StoredEngagement) (did handle : String)
    (uc : UserContribution)
    (h : mapGet (aggregateUserContributions posts) did = some uc) :
    (computeNoiseScore posts profiles interactions engagements did
      handle).volumePercentile =
      (((aggregateUserContributions posts).countP
        (fun c => decide (c.2.totalCount ≤ uc.totalCount)) : Rat)) /
      ((aggregateUserContributions posts).length : Rat) := by
  have hpr : ∃ pr ∈ aggregateUserContributions posts, pr.2 = uc := by
    rcases Option.map_eq_some'.mp h with ⟨pr, hfind, hsnd⟩
    exact ⟨pr, List.mem_of_find?_eq_some hfind, hsnd⟩
  rcases hpr with ⟨pr, hmem, hsnd⟩
  have hmemc : uc.totalCount ∈
      (aggregateUserContributions posts).map (fun c => c.2.totalCount) :=
    List.mem_map.mpr ⟨pr, hmem, by rw [hsnd]⟩
  have hperm := List.perm_insertionSort natDescend
    ((aggregateUserContributions posts).map (fun c => c.2.totalCount))
  have hmems : uc.totalCount ∈ List.insertionSort natDescend
      ((aggregateUserContributions posts).map (fun c => c.2.totalCount)) :=
    hperm.mem_iff.mpr hmemc
  have hfind := findIdx_sorted_descend uc.totalCount
    (List.insertionSort natDescend
      ((aggregateUserContributions posts).map (fun c => c.2.totalCount))) 0
    (List.sorted_insertionSort natDescend _)
    ⟨uc.totalCount, hmems, le_refl _⟩
  simp only [computeNoiseScore, h]
  simp only [hfind, Nat.add_zero]
  rw [hperm.length_eq, hperm.countP_eq, List.length_map, List.countP_map]
  have hsplit : (aggregateUserContributions posts).countP
      (fun c => decide (uc.totalCount < c.2.totalCount)) +
      (aggregateUserContributions posts).countP
      (fun c => decide (c.2.totalCount ≤ uc.totalCount)) =
      (aggregateUserContributions posts).length := by
    have hlenc := List.length_eq_countP_add_countP
      (fun c : String × UserContribution =>
        decide (uc.totalCount < c.2.totalCount))
      (aggregateUserContributions posts)
    have hco : (aggregateUserContributions posts).countP
        (fun c => decide ¬(decide (uc.totalCount < c.2.totalCount) = true)) =
        (aggregateUserContributions posts).countP
        (fun c => decide (c.2.totalCount ≤ uc.totalCount)) := by
      apply List.countP_congr
      intro a _
      simp [Nat.not_lt]
    rw [hco] at hlenc
    omega
  have hm : ((aggregateUserContributions posts).countP
      (fun c => decide (c.2.totalCount ≤ uc.totalCount)) : Rat) =
      ((aggregateUserContributions posts).length : Rat) -
      ((aggregateUserContributions posts).countP
        (fun c => decide (uc.totalCount < c.2.totalCount)) : Rat) := by
    have hq := congrArg (fun x : Nat => (x : Rat)) hsplit
    push_cast at hq
    linarith
  rw [mul_div_assoc]
  norm_num
  rw [hm]
  rfl

/-- C6: for a contributor present in the aggregation (at least one stored
post), the volume percentile equals the fraction of contributors whose
total activity count is at most this contributor's, scaled to the unit
interval; contributors with tied totals receive the same percentile. -/
theorem c6_volume_percentile (posts : List StoredPost)
    (profiles : List StoredProfile) (interactions : List StoredInteraction)
    (engagements : List StoredEngagement) (did handle : String)
    (uc : UserContribution)
    (h : mapGet (aggregateUserContributions posts) did = some uc) :
    ((computeNoiseScore posts profiles interactions engagements did
      handle).volumePercentile =
      (((aggregateUserContributions posts).countP
        (fun c => decide (c.2.totalCount ≤ uc.totalCount)) : Rat)) /
      ((aggregateUserContributions posts).length : Rat)) ∧
    (∀ did2 handle2 uc2,
      mapGet (aggregateUserContributions posts) did2 = some uc2 →
      uc2.totalCount = uc.totalCount →
      (computeNoiseScore posts profiles interactions engagements did2
        handle2).volumePercentile =
      (computeNoiseScore posts profiles interactions engagements did
        handle).volumePercentile) := by
  refine ⟨volumePercentile_closed_form posts profiles interactions
    engagements did handle uc h, ?_⟩
  intro did2 handle2 uc2 h2 htot
  rw [volumePercentile_closed_form posts profiles interactions engagements
    did2 handle2 uc2 h2,
    volumePercentile_closed_form posts profiles interactions engagements
    did handle uc h, htot]

/-- C6 witness: with three stored posts (one by alice, two by bob), alice's
volume percentile is the closed-form fraction. -/
theorem c6_volume_percentile_witness :
    mapGet (aggregateUserContributions [alicePost, bobPost 1, bobPost 2])
      "did:alice" =
      some ⟨"did:alice", "alice", none, none, 1, 0, 0, 0, 1⟩ ∧
    (computeNoiseScore [alicePost, bobPost 1, bobPost 2] [] [] []
      "did:alice" "alice").volumePercentile =
      (((aggregateUserContributions [alicePost, bobPost 1, bobPost 2]).countP
        (fun c => decide (c.2.totalCount ≤
          (⟨"did:alice", "alice", none, none, 1, 0, 0, 0, 1⟩ :
            UserContribution).totalCount)) : Rat)) /
      ((aggregateUserContributions [alicePost, bobPost 1, bobPost 2]).length :
        Rat) := by
  constructor
  · decide
  · exact (c6_volume_percentile [alicePost, bobPost 1, bobPost 2] [] [] []
      "did:alice" "alice" ⟨"did:alice", "alice", none, none, 1, 0, 0, 0, 1⟩
      (by decide)).1

/-! ## C7 -/

/-- C7: the claimed bound `0 ≤ score ≤ 1` fails on the code. With one stored
post by alice and two stored like interactions targeting alice (likes of
posts that are not themselves stored — e.g. already evicted), the
engagement rate is `2/1 = 2` and the noise score evaluates to
`1 × (1 − 2) = −1 < 0`, contradicting the `score: 0.0 to 1.0` contract. -/
theorem c7_noise_score_negative :
    (computeNoiseScore [alicePost] [] [aliceLike "u1", aliceLike "u2"] []
      "did:alice" "alice").score = -1 ∧
    (computeNoiseScore [alicePost] [] [aliceLike "u1", aliceLike "u2"] []
      "did:alice" "alice").score < 0 := by
  have h : (computeNoiseScore [alicePost] []
      [aliceLike "u1", aliceLike "u2"] [] "did:alice" "alice").score = -1 := by
    simp [computeNoiseScore, aggregateUserContributions, contribStep, mapGet,
      mapSet, getUserEngagement, List.insertionSort, List.orderedInsert,
      natDescend, alicePost, aliceLike, List.findIdx?_cons, List.find?,
      List.countP, List.countP.go]
    norm_num
  refine ⟨h, ?_⟩
  rw [h]
  norm_num

/-! ## C1 -/

theorem mem_mapSet {α : Type} (m : List (String × α)) (k : String) (v : α)
    (p : String × α) (hp : p ∈ mapSet m k v) : p = (k, v) ∨ p ∈ m := by
  unfold mapSet at hp
  by_cases h : m.any (fun q => q.1 == k) = true
  · rw [if_pos h] at hp
    rcases List.mem_map.mp hp with ⟨q, hq, hfq⟩
    by_cases hk : (q.1 == k) = true
    · rw [if_pos hk] at hfq
      exact Or.inl hfq.symm
    · rw [if_neg hk] at hfq
      exact Or.inr (hfq ▸ hq)
  · rw [if_neg h] at hp
    rcases List.mem_append.mp hp with h1 | h1
    · exact Or.inr h1
    · exact Or.inl (List.mem_singleton.mp h1)

theorem contribStep_pos (m : List (String × UserContribution))
    (post : StoredPost) (hm : ∀ p ∈ m, 0 < p.2.totalCount) :
    ∀ p ∈ contribStep m post, 0 < p.2.totalCount := by
  intro p hp
  unfold contribStep at hp
  rcases mem_mapSet _ _ _ p hp with heq | hpm
  · rw [heq]
    cases hpt : post.postType <;> simp [hpt] <;> omega
  · exact hm p hpm

theorem aggregate_totalCount_pos (posts : List StoredPost) (did : String)
    (uc : UserContribution)
    (h : mapGet (aggregateUserContributions posts) did = some uc) :
    0 < uc.totalCount := by
  have hinv : ∀ (ps : List StoredPost) (m : List (String × UserContribution)),
      (∀ p ∈ m, 0 < p.2.totalCount) →
      ∀ p ∈ ps.foldl contribStep m, 0 < p.2.totalCount := by
    intro ps
    induction ps with
    | nil => intro m hm p hp; exact hm p hp
    | cons post rest ih =>
      intro m hm
      exact ih (contribStep m post) (contribStep_pos m post hm)
  rcases Option.map_eq_some'.mp h with ⟨pr, hfind, hsnd⟩
  have hpr := hinv posts [] (by intro p hp; cases hp)
    pr (List.mem_of_find?_eq_some hfind)
  rw [hsnd] at hpr
  exact hpr

theorem countP_interaction_split (l : List StoredInteraction) (did : String) :
    l.countP (fun i => decide (i.targetAuthorDid = did ∧ i.type = .like)) +
    l.countP (fun i => decide (i.targetAuthorDid = did ∧ i.type = .reply)) +
    l.countP (fun i => decide (i.targetAuthorDid = did ∧ i.type = .quote)) =
    l.countP (fun i => decide (i.targetAuthorDid = did ∧
      (i.type = .like ∨ i.type = .reply ∨ i.type = .quote))) := by
  induction l with
  | nil => rfl
  | cons i rest ih =>
    simp only [List.countP_cons]
    by_cases hd : i.targetAuthorDid = did
    · cases ht : i.type <;> simp [hd, ht] at ih ⊢ <;> omega
    · simpa [hd] using ih

/-- C1 amended: `yourTotal` counts exactly the stored interactions whose
target author is the queried DID and whose type is like, reply or quote —
repost interactions are never counted. The noise score's `engagementRate`
is that count divided by the contributor's total activity count when the
contributor has activity, and 0 otherwise. -/
theorem c1_engagement_rate_amended (posts : List StoredPost)
    (profiles : List StoredProfile) (interactions : List StoredInteraction)
    (engagements : List StoredEngagement) (did handle : String) :
    ((getUserEngagement interactions engagements did handle).yourTotal =
      interactions.countP (fun i => decide (i.targetAuthorDid = did ∧
        (i.type = .like ∨ i.type = .reply ∨ i.type = .quote)))) ∧
    (mapGet (aggregateUserContributions posts) did = none →
      (computeNoiseScore posts profiles interactions engagements did
        handle).engagementRate = 0) ∧
    (∀ uc, mapGet (aggregateUserContributions posts) did = some uc →
      (computeNoiseScore posts profiles interactions engagements did
        handle).engagementRate =
        ((getUserEngagement interactions engagements did handle).yourTotal :
          Rat) / (uc.totalCount : Rat)) := by
  refine ⟨?_, ?_, ?_⟩
  · simp only [getUserEngagement]
    exact countP_interaction_split interactions did
  · intro hnone
    simp [computeNoiseScore, hnone]
  · intro uc h
    have hpos := aggregate_totalCount_pos posts did uc h
    simp only [computeNoiseScore, h]
    rw [if_pos hpos]

/-- C1 counterexample: a stored repost interaction targeting alice is a
stored Interaction whose target author is alice, yet `getUserEngagement`
counts nothing toward `yourTotal` (its branches cover only like, reply and
quote), so `yourTotal` differs from the count the claim specifies. -/
theorem c1_counterexample :
    (getUserEngagement [aliceRepost] [] "did:alice" "alice").yourTotal = 0 ∧
    ([aliceRepost].countP
      (fun i => decide (i.targetAuthorDid = "did:alice"))) = 1 := by
  decide

/-- C1 witness: with one stored post by alice and one stored like targeting
alice, the engagement rate is the amended quotient. -/
theorem c1_engagement_rate_witness :
    mapGet (aggregateUserContributions [alicePost]) "did:alice" =
      some ⟨"did:alice", "alice", none, none, 1, 0, 0, 0, 1⟩ ∧
    (computeNoiseScore [alicePost] [] [aliceLike "u1"] [] "did:alice"
      "alice").engagementRate =
      ((getUserEngagement [aliceLike "u1"] [] "did:alice" "alice").yourTotal :
        Rat) / ((⟨"did:alice", "alice", none, none, 1, 0, 0, 0, 1⟩ :
          UserContribution).totalCount : Rat) := by
  refine ⟨by decide, ?_⟩
  exact (c1_engagement_rate_amended [alicePost] [] [aliceLike "u1"] []
    "did:alice" "alice").2.2 _ (by decide)

/-! ## C10 -/

theorem mem_computeAllReciprocityScores (posts : List StoredPost)
    (interactions : List StoredInteraction)
    (engagements : List StoredEngagement) (r : ReciprocityScore) :
    r ∈ computeAllReciprocityScores posts interactions engagements ↔
    ∃ c ∈ aggregateUserContributions posts,
      r = computeReciprocityScore interactions engagements c.1 c.2.handle := by
  unfold computeAllReciprocityScores
  rw [(List.perm_insertionSort _ _).mem_iff, List.mem_map]
  constructor
  · rintro ⟨c, hc, heq⟩
    exact ⟨c, hc, heq.symm⟩
  · rintro ⟨c, hc, heq⟩
    exact ⟨c, hc, heq.symm⟩

theorem reciprocity_yourEngagement_zero
    (interactions : List StoredInteraction)
    (engagements : List StoredEngagement) (did handle : String)
    (h : ∀ i ∈ interactions, i.targetAuthorDid ≠ did) :
    (computeReciprocityScore interactions engagements did
      handle).yourEngagement = 0 := by
  have hz : ∀ (q : InteractionType), interactions.countP
      (fun i => decide (i.targetAuthorDid = did ∧ i.type = q)) = 0 := by
    intro q
    rw [List.countP_eq_zero]
    intro i hi
    simp [h i hi]
  simp only [computeReciprocityScore, getUserEngagement]
  rw [hz .like, hz .reply, hz .quote]

/-- C10: `getNonReciprocal` returns exactly the reciprocity scores of the
analytics snapshot with strictly positive engagement from you and a score
strictly below the threshold; in particular, when the snapshot is computed
fresh, an account toward which you have recorded no interaction is never
reported. -/
theorem c10_getNonReciprocal_spec (w : World) (now : Int) (threshold : Rat)
    (r : ReciprocityScore) :
    (r ∈ (getNonReciprocal w now threshold).1 ↔
      r ∈ (getAnalytics w now).1.reciprocityScores ∧
      0 < r.yourEngagement ∧ r.score < threshold) ∧
    (∀ did, w.analyticsCache = none →
      (∀ i ∈ w.interactions, i.targetAuthorDid ≠ did) →
      r ∈ (getNonReciprocal w now threshold).1 → r.did ≠ did) := by
  have hiff : r ∈ (getNonReciprocal w now threshold).1 ↔
      r ∈ (getAnalytics w now).1.reciprocityScores ∧
      0 < r.yourEngagement ∧ r.score < threshold := by
    simp [getNonReciprocal, List.mem_filter, and_assoc]
  refine ⟨hiff, ?_⟩
  intro did hcache hno hmem
  rcases hiff.mp hmem with ⟨hin, hpos, _⟩
  have hsc : (getAnalytics w now).1.reciprocityScores =
      computeAllReciprocityScores w.posts w.interactions w.engagements := by
    simp [getAnalytics, hcache, computeAndCacheAnalytics]
  rw [hsc] at hin
  rcases (mem_computeAllReciprocityScores w.posts w.interactions
    w.engagements r).mp hin with ⟨c, _, heq⟩
  intro hdid
  have hcdid : c.1 = did := by
    have : r.did = c.1 := by
      rw [heq]
      rfl
    rw [← this, hdid]
  have hzero : r.yourEngagement = 0 := by
    rw [heq]
    apply reciprocity_yourEngagement_zero
    intro i hi
    rw [hcdid]
    exact hno i hi
  omega

/-- C10 witness: a cached snapshot containing a score row with positive
engagement and score 0 is returned by `getNonReciprocal` under threshold 1. -/
theorem c10_getNonReciprocal_witness :
    lowReciprocityRow ∈ (getNonReciprocal cachedWorld 0 1).1 := by
  refine (c10_getNonReciprocal_spec cachedWorld 0 1
    lowReciprocityRow).1.mpr ⟨?_, ?_, ?_⟩
  · show lowReciprocityRow ∈ (getAnalytics cachedWorld 0).1.reciprocityScores
    have hfresh : getAnalytics cachedWorld 0 = (cachedSnap, cachedWorld) := by
      simp [getAnalytics, cachedWorld, CACHE_DURATION, cachedSnap]
    rw [hfresh]
    simp [cachedSnap]
  · decide
  · norm_num [lowReciprocityRow]

/-! ## C3 -/

theorem updateSyncState_cache (w : World) (key : String)
    (update : SyncStatePatch) :
    (updateSyncState w key update).analyticsCache = w.analyticsCache := rfl

theorem startSync_cache (w : World) (key : String) :
    (startSync w key).analyticsCache = w.analyticsCache := rfl

theorem completeSync_cache (w : World) (now : Int) (key : String)
    (cursor : Option String) (items : Option Nat) :
    (completeSync w now key cursor items).analyticsCache =
      w.analyticsCache := rfl

theorem failSync_cache (w : World) (key error : String) :
    (failSync w key error).analyticsCache = w.analyticsCache := rfl

theorem saveProfiles_cache (w : World) (items : List StoredProfile) :
    (saveProfiles w items).analyticsCache = w.analyticsCache := rfl

theorem savePosts_cache (w : World) (items : List StoredPost) :
    (savePosts w items).analyticsCache = w.analyticsCache := rfl

theorem processFeedItems_cache (env : SyncEnv) (did handle : String)
    (cutoff : Int) :
    ∀ (items : List FeedViewPost) (w : World) (count : Nat),
      ((processFeedItems env did handle cutoff items w count).2.2).analyticsCache
        = w.analyticsCache := by
  intro items
  induction items with
  | nil => intro w count; rfl
  | cons fp rest ih =>
    intro w count
    simp only [processFeedItems]
    by_cases h : fp.post.createdAt < cutoff
    · rw [if_pos h]
    · rw [if_neg h]
      rw [ih]
      rfl

theorem syncAuthorFeed_cache (env : SyncEnv) (did handle : String)
    (cutoff : Int) :
    ∀ (fuel idx : Nat) (w : World) (count : Nat),
      ((syncAuthorFeed env did handle cutoff fuel idx w count).2).analyticsCache
        = w.analyticsCache := by
  intro fuel
  induction fuel with
  | zero => intro idx w count; rfl
  | succ f ih =>
    intro idx w count
    rcases hpage : env.authorFeedPages did idx with e | resp
    · simp [syncAuthorFeed, hpage]
    · simp only [syncAuthorFeed, hpage]
      have hpf := processFeedItems_cache env did handle cutoff resp.feed w
        count
      rcases hres : processFeedItems env did handle cutoff resp.feed w count
        with ⟨o, c2, w2⟩
      rw [hres] at hpf
      cases o with
      | some fc => simpa using hpf
      | none =>
        cases hcur : jsTruthyStr resp.cursor
        · simpa [hcur] using hpf
        · simp only [hcur, if_true]
          rw [ih]
          exact hpf

theorem syncPostsBatchOne_foldl_cache (env : SyncEnv) (cutoff : Int) :
    ∀ (batch : List StoredProfile) (acc : Nat × World),
      ((batch.foldl (fun acc profile =>
        match syncAuthorFeed env profile.did profile.handle cutoff
            env.pageFuel 0 acc.2 0 with
        | (.ok n, w') => (acc.1 + n, w')
        | (.error _, w') => (acc.1, w')) acc).2).analyticsCache =
      (acc.2).analyticsCache := by
  intro batch
  induction batch with
  | nil => intro acc; rfl
  | cons p rest ih =>
    intro acc
    rw [List.foldl_cons, ih]
    have hsf := syncAuthorFeed_cache env p.did p.handle cutoff env.pageFuel 0
      acc.2 0
    rcases hres : syncAuthorFeed env p.did p.handle cutoff env.pageFuel 0
      acc.2 0 with ⟨r, w2⟩
    rw [hres] at hsf
    cases r with
    | ok n => simpa using hsf
    | error e => simpa using hsf

theorem syncPostsBatchOne_cache (env : SyncEnv) (cutoff : Int)
    (batch : List StoredProfile) (w : World) :
    ((syncPostsBatchOne env cutoff batch w).2).analyticsCache =
      w.analyticsCache := by
  unfold syncPostsBatchOne
  exact syncPostsBatchOne_foldl_cache env cutoff batch (0, w)

theorem syncPostsBatches_cache (env : SyncEnv) (cutoff : Int) :
    ∀ (fuel : Nat) (ps : List StoredProfile) (w : World),
      ((syncPostsBatches env cutoff fuel ps w).2).analyticsCache =
        w.analyticsCache := by
  intro fuel
  induction fuel with
  | zero =>
    intro ps w
    cases ps <;> rfl
  | succ f ih =>
    intro ps w
    cases ps with
    | nil => rfl
    | cons p rest =>
      simp only [syncPostsBatches]
      have h1 := syncPostsBatchOne_cache env cutoff ((p :: rest).take 10) w
      have h2 := ih ((p :: rest).drop 10)
        (syncPostsBatchOne env cutoff ((p :: rest).take 10) w).2
      exact h2.trans h1

theorem syncPosts_cache (env : SyncEnv) (daysBack : Int) (w : World) :
    ((syncPosts env daysBack w).2).analyticsCache = w.analyticsCache := by
  rcases hpf : getAllProfilesCall env (startSync w "timeline") with e | profiles
  · simp only [syncPosts, hpf]
    rfl
  · simp only [syncPosts, hpf]
    exact syncPostsBatches_cache env (env.now - daysBack * 86400000)
      (profiles.filter (fun p => p.youFollow)).length
      (profiles.filter (fun p => p.youFollow)) (startSync w "timeline")

theorem syncFollows_cache (env : SyncEnv) (w : World) :
    ((syncFollows env w).2).analyticsCache = w.analyticsCache := by
  unfold syncFollows
  cases env.currentDid with
  | none => rfl
  | some d =>
    cases runFollowsPager env.followsPages env.pageFuel with
    | error e => rfl
    | ok follows => rfl

theorem syncFollowers_cache (env : SyncEnv) (w : World) :
    ((syncFollowers env w).2).analyticsCache = w.analyticsCache := by
  unfold syncFollowers
  cases env.currentDid with
  | none => rfl
  | some d =>
    cases runFollowersPager env.followersPages env.pageFuel with
    | error e => rfl
    | ok followers => rfl

theorem processLikes_cache (env : SyncEnv) (uri : String) (w : World)
    (count : Nat) :
    ((processLikes env uri w count).1).analyticsCache = w.analyticsCache := by
  unfold processLikes
  cases runLikesPager (env.likesPages uri) env.pageFuel with
  | error e => rfl
  | ok likes =>
    simp only []
    induction likes generalizing w count with
    | nil => rfl
    | cons l rest ih =>
      rw [List.foldl_cons]
      exact ih _ _

theorem processQuotes_cache (env : SyncEnv) (uri : String) (w : World)
    (count : Nat) :
    ((processQuotes env uri w count).1).analyticsCache = w.analyticsCache := by
  unfold processQuotes
  cases env.quotesResponse uri with
  | error e => rfl
  | ok quotes =>
    simp only []
    induction quotes.posts generalizing w count with
    | nil => rfl
    | cons q rest ih =>
      rw [List.foldl_cons]
      exact ih _ _

theorem processReplies_cache (env : SyncEnv) (uri : String) (w : World)
    (count : Nat) :
    ((processReplies env uri w count).1).analyticsCache =
      w.analyticsCache := by
  unfold processReplies
  cases env.threadResponse uri with
  | error e => rfl
  | ok thread =>
    simp only []
    induction thread.replies generalizing w count with
    | nil => rfl
    | cons r rest ih =>
      rw [List.foldl_cons]
      cases hr : r.isThreadViewPost
      · simp only [hr, Bool.false_eq_true, if_false]
        exact ih _ _
      · simp only [hr, if_true]
        exact ih _ _

theorem processEngagementPosts_cache (env : SyncEnv) (cutoff : Int) :
    ∀ (items : List FeedViewPost) (w : World) (count : Nat),
      ((processEngagementPosts env cutoff items w count).2.2).analyticsCache =
        w.analyticsCache := by
  intro items
  induction items with
  | nil => intro w count; rfl
  | cons fp rest ih =>
    intro w count
    simp only [processEngagementPosts]
    by_cases h : fp.post.createdAt < cutoff
    · rw [if_pos h]
    · rw [if_neg h]
      rw [ih]
      rw [processReplies_cache, processQuotes_cache, processLikes_cache]

theorem syncEngagementsLoop_cache (env : SyncEnv) (myDid : String)
    (cutoff : Int) :
    ∀ (fuel idx : Nat) (w : World) (count : Nat),
      ((syncEngagementsLoop env myDid cutoff fuel idx w count).2).analyticsCache
        = w.analyticsCache := by
  intro fuel
  induction fuel with
  | zero => intro idx w count; rfl
  | succ f ih =>
    intro idx w count
    rcases hpage : env.authorFeedPages myDid idx with e | resp
    · simp [syncEngagementsLoop, hpage]
    · simp only [syncEngagementsLoop, hpage]
      have hpe := processEngagementPosts_cache env cutoff resp.feed w count
      rcases hres : processEngagementPosts env cutoff resp.feed w count
        with ⟨o, c2, w2⟩
      rw [hres] at hpe
      cases o with
      | some fc =>
        simpa [completeSync_cache] using hpe
      | none =>
        cases hcur : jsTruthyStr resp.cursor
        · simpa [hcur, completeSync_cache] using hpe
        · simp only [hcur, if_true]
          rw [ih]
          exact hpe

theorem syncEngagements_cache (env : SyncEnv) (daysBack : Int) (w : World) :
    ((syncEngagements env daysBack w).2).analyticsCache =
      w.analyticsCache := by
  unfold syncEngagements
  cases env.currentDid with
  | none => rfl
  | some myDid =>
    simp only []
    have hl := syncEngagementsLoop_cache env myDid
      (env.now - daysBack * 86400000) env.pageFuel 0
      (startSync w "my-posts") 0
    rcases hres : syncEngagementsLoop env myDid
      (env.now - daysBack * 86400000) env.pageFuel 0
      (startSync w "my-posts") 0 with ⟨r, w2⟩
    rw [hres] at hl
    cases r with
    | ok n => exact hl
    | error e => simpa [failSync_cache] using hl

/-- C3: a full sync never touches the analytics cache store — in particular
a successful `runFullSync` does not invalidate the cached snapshot, so a
`getAnalytics()` call within the TTL still returns the pre-sync snapshot.
`invalidateAnalyticsCache` is defined but never called by the orchestrator. -/
theorem runStage_cache (enabled : Bool)
    (stage : World → Except JsError Nat × World)
    (hstage : ∀ w, ((stage w).2).analyticsCache = w.analyticsCache)
    (acc : Except JsError Unit × World) :
    ((runStage enabled stage acc).2).analyticsCache =
      (acc.2).analyticsCache := by
  rcases acc with ⟨r, w⟩
  cases r with
  | error e => rfl
  | ok u =>
    simp only [runStage]
    cases enabled
    · rfl
    · simp only [if_true]
      have hst := hstage w
      rcases hres : stage w with ⟨r1, w1⟩
      rw [hres] at hst
      cases r1 with
      | error e => exact hst
      | ok n => exact hst

theorem c3_runFullSync_preserves_cache (options : SyncOptions)
    (env : SyncEnv) (w : World) :
    ((runFullSync options env w).2).analyticsCache = w.analyticsCache := by
  unfold runFullSync
  rw [runStage_cache _ _ (fun w0 => syncEngagements_cache env _ w0),
    runStage_cache _ _ (fun w0 => syncPosts_cache env _ w0),
    runStage_cache _ _ (fun w0 => syncFollowers_cache env w0),
    runStage_cache _ _ (fun w0 => syncFollows_cache env w0)]

/-! ## C5 -/

theorem find?_storePut {α : Type} (key : α → String) (x : α)
    (store : List α) :
    (storePut store key x).find? (fun z => key z == key x) = some x := by
  by_cases h : store.any (fun z => key z == key x) = true
  · rw [storePut_eq_map store key x h]
    have haux : ∀ (l : List α),
        (l.map (fun z => if key z == key x then x else z)).find?
          (fun z => key z == key x) =
        if l.any (fun z => key z == key x) = true then some x else none := by
      intro l
      induction l with
      | nil => simp
      | cons a rest ih =>
        simp only [List.map_cons, List.any_cons]
        by_cases hk : (key a == key x) = true
        · rw [if_pos hk]
          have hstep : List.find? (fun z => key z == key x)
              (x :: rest.map (fun z => if key z == key x then x else z)) =
              some x :=
            List.find?_cons_of_pos _ (by simp)
          rw [hstep]
          simp [hk]
        · rw [if_neg hk]
          have hstep : List.find? (fun z => key z == key x)
              (a :: rest.map (fun z => if key z == key x then x else z)) =
              List.find? (fun z => key z == key x)
                (rest.map (fun z => if key z == key x then x else z)) :=
            List.find?_cons_of_neg _ hk
          rw [hstep, ih]
          simp [hk]
    rw [haux, if_pos h]
  · have h' : store.any (fun z => key z == key x) = false := by simpa using h
    rw [storePut_eq_append store key x h']
    rw [List.find?_append]
    have hnone : store.find? (fun z => key z == key x) = none := by
      rw [List.find?_eq_none]
      intro z hz hp
      have : store.any (fun z => key z == key x) = true :=
        List.any_eq_true.mpr ⟨z, hz, hp⟩
      rw [this] at h'
      cases h'
    rw [hnone]
    simp

theorem getSyncState_updateSyncState (w : World) (key : String)
    (update : SyncStatePatch) :
    getSyncState (updateSyncState w key update) key = some
      { key := key,
        lastCursor := update.lastCursor <|>
          (getSyncState w key).bind (fun e => e.lastCursor),
        lastSyncAt := update.lastSyncAt.getD
          (((getSyncState w key).map (fun e => e.lastSyncAt)).getD 0),
        itemsProcessed := update.itemsProcessed.getD
          (((getSyncState w key).map (fun e => e.itemsProcessed)).getD 0),
        status := update.status.getD
          (((getSyncState w key).map (fun e => e.status)).getD .idle),
        error := update.error } := by
  unfold updateSyncState saveSyncState getSyncState
  exact find?_storePut (fun s : SyncState => s.key)
    ({ key := key,
       lastCursor := update.lastCursor <|>
         (List.find? (fun s => s.key == key) w.syncStates).bind
           (fun e => e.lastCursor),
       lastSyncAt := update.lastSyncAt.getD
         (((List.find? (fun s => s.key == key) w.syncStates).map
           (fun e => e.lastSyncAt)).getD 0),
       itemsProcessed := update.itemsProcessed.getD
         (((List.find? (fun s => s.key == key) w.syncStates).map
           (fun e => e.itemsProcessed)).getD 0),
       status := update.status.getD
         (((List.find? (fun s => s.key == key) w.syncStates).map
           (fun e => e.status)).getD .idle),
       error := update.error } : SyncState) w.syncStates

theorem getSyncState_failSync (w : World) (key msg : String) :
    ∃ st, getSyncState (failSync w key msg) key = some st ∧
      st.status = .error ∧ st.error = some msg := by
  unfold failSync
  exact ⟨_, getSyncState_updateSyncState w key
    { lastCursor := none, lastSyncAt := none, itemsProcessed := none,
      status := some .error, error := some msg }, rfl, rfl⟩

/-- C5 amended: for every sync stage — follows, followers, posts
(timeline), engagements (my-posts) — when the stage body throws after the
stage has recorded `syncing`, the stage leaves its SyncState row with
status `error` and the thrown error's message — which is empty exactly
when the thrown error's message is empty — and re-throws the same
exception to the caller. Each stage's throw site after `startSync`: the
follows/followers pagers, the stage-level `getAllProfiles()` read of
`syncPosts` (the batched fan-out isolates per-account rejections, so it is
that stage's only stage-level throw), and the feed pagination loop of
`syncEngagements`. -/
theorem c5_stage_failure_amended (env : SyncEnv) (daysBack : Int)
    (w : World) :
    (∀ did e, env.currentDid = some did →
      runFollowsPager env.followsPages env.pageFuel = .error e →
      (syncFollows env w).1 = .error e ∧
      ∃ st, getSyncState (syncFollows env w).2 "follows" = some st ∧
        st.status = .error ∧ st.error = some (errMessage e)) ∧
    (∀ did e, env.currentDid = some did →
      runFollowersPager env.followersPages env.pageFuel = .error e →
      (syncFollowers env w).1 = .error e ∧
      ∃ st, getSyncState (syncFollowers env w).2 "followers" = some st ∧
        st.status = .error ∧ st.error = some (errMessage e)) ∧
    (∀ e, env.profilesFail = some e →
      (syncPosts env daysBack w).1 = .error e ∧
      ∃ st, getSyncState (syncPosts env daysBack w).2 "timeline" = some st ∧
        st.status = .error ∧ st.error = some (errMessage e)) ∧
    (∀ did e w2, env.currentDid = some did →
      syncEngagementsLoop env did (env.now - daysBack * 86400000)
        env.pageFuel 0 (startSync w "my-posts") 0 = (.error e, w2) →
      (syncEngagements env daysBack w).1 = .error e ∧
      ∃ st, getSyncState (syncEngagements env daysBack w).2 "my-posts" =
          some st ∧
        st.status = .error ∧ st.error = some (errMessage e)) := by
  refine ⟨?_, ?_, ?_, ?_⟩
  · intro did e hdid hpager
    constructor
    · simp [syncFollows, hdid, hpager]
    · simp only [syncFollows, hdid, hpager]
      exact getSyncState_failSync (startSync w "follows") "follows"
        (errMessage e)
  · intro did e hdid hpager
    constructor
    · simp [syncFollowers, hdid, hpager]
    · simp only [syncFollowers, hdid, hpager]
      exact getSyncState_failSync (startSync w "followers") "followers"
        (errMessage e)
  · intro e h
    have hcall : getAllProfilesCall env (startSync w "timeline") =
        .error e := by
      simp [getAllProfilesCall, h]
    constructor
    · simp [syncPosts, hcall]
    · simp only [syncPosts, hcall]
      exact getSyncState_failSync (startSync w "timeline") "timeline"
        (errMessage e)
  · intro did e w2 hdid hloop
    constructor
    · simp [syncEngagements, hdid, hloop]
    · simp only [syncEngagements, hdid, hloop]
      exact getSyncState_failSync w2 "my-posts" (errMessage e)

/-- C5 counterexample: throwing `new Error('')` (an Error whose message is
the empty string) from the stage body records `status = 'error'` with an
EMPTY `error` message and re-throws — the claim's promise of a non-empty
message fails. -/
theorem c5_counterexample :
    (syncPosts (dbFailEnv (.error "")) 7 emptyWorld).1 =
      .error (.error "") ∧
    ((getSyncState (syncPosts (dbFailEnv (.error "")) 7 emptyWorld).2
      "timeline").map (fun st => st.error)) = some (some "") ∧
    ("" : String).length = 0 := by
  refine ⟨rfl, rfl, rfl⟩

/-- C5 witness: the amended statement at a concrete environment in which
all four stages throw after recording `syncing` — the pagers and the feed
loop exhaust their page budget, and the database read throws an Error
with message boom. -/
theorem c5_stage_failure_witness :
    ((syncFollows (dbFailEnv (.error "boom")) emptyWorld).1 =
      .error fuelError ∧
    ∃ st, getSyncState (syncFollows (dbFailEnv (.error "boom"))
        emptyWorld).2 "follows" = some st ∧
      st.status = .error ∧ st.error = some "model: page fuel exhausted") ∧
    ((syncFollowers (dbFailEnv (.error "boom")) emptyWorld).1 =
      .error fuelError ∧
    ∃ st, getSyncState (syncFollowers (dbFailEnv (.error "boom"))
        emptyWorld).2 "followers" = some st ∧
      st.status = .error ∧ st.error = some "model: page fuel exhausted") ∧
    ((syncPosts (dbFailEnv (.error "boom")) 7 emptyWorld).1 =
      .error (.error "boom") ∧
    ∃ st, getSyncState (syncPosts (dbFailEnv (.error "boom")) 7
        emptyWorld).2 "timeline" = some st ∧
      st.status = .error ∧ st.error = some "boom") ∧
    ((syncEngagements (dbFailEnv (.error "boom")) 7 emptyWorld).1 =
      .error fuelError ∧
    ∃ st, getSyncState (syncEngagements (dbFailEnv (.error "boom")) 7
        emptyWorld).2 "my-posts" = some st ∧
      st.status = .error ∧ st.error = some "model: page fuel exhausted") := by
  refine ⟨?_, ?_, ?_, ?_⟩
  · exact (c5_stage_failure_amended (dbFailEnv (.error "boom")) 7
      emptyWorld).1 "did:me" fuelError rfl rfl
  · exact (c5_stage_failure_amended (dbFailEnv (.error "boom")) 7
      emptyWorld).2.1 "did:me" fuelError rfl rfl
  · exact (c5_stage_failure_amended (dbFailEnv (.error "boom")) 7
      emptyWorld).2.2.1 (.error "boom") rfl
  · exact (c5_stage_failure_amended (dbFailEnv (.error "boom")) 7
      emptyWorld).2.2.2 "did:me" fuelError
      (startSync emptyWorld "my-posts") rfl rfl


/-! ## C4: rate limiter invariants -/

/-- A sorted list splits into the entries failing an upward-closed predicate
followed by the entries satisfying it. -/
theorem sorted_filter_split (p : Int → Bool) (l : List Int)
    (hs : l.Pairwise (fun a b => a ≤ b))
    (hup : ∀ a b, a ≤ b → p a = true → p b = true) :
    l = l.filter (fun t => ! p t) ++ l.filter p := by
  induction l with
  | nil => rfl
  | cons x xs ih =>
    rcases List.pairwise_cons.mp hs with ⟨hx, hxs⟩
    cases hpx : p x with
    | false =>
      have h := ih hxs
      simp only [List.filter_cons, hpx, Bool.not_false, if_true,
        Bool.false_eq_true, if_false, List.cons_append, List.cons.injEq,
        true_and]
      exact h
    | true =>
      have hall : ∀ b ∈ xs, p b = true := fun b hb => hup x b (hx b hb) hpx
      have h1 : xs.filter (fun t => ! p t) = [] := by
        rw [List.filter_eq_nil_iff]
        intro a ha
        simp [hall a ha]
      have h2 : xs.filter p = xs := List.filter_eq_self.mpr hall
      simp only [List.filter_cons, hpx, Bool.not_true, Bool.false_eq_true,
        if_false, if_true, h1, h2, List.nil_append]

/-- Specification of `recordSlot`: the grant respects the minimum delay from
`last`, is no earlier than `now`, and appending it preserves the history
invariants when the pruned list is under quota. -/
theorem recordSlot_spec (cfg : RateLimiterConfig) (H pruned : List Int)
    (last now : Int) (hd : 0 ≤ cfg.minDelayMs)
    (hcount : pruned.length < cfg.maxRequests)
    (hpre : ∃ pre, H = pre ++ pruned ∧ ∀ t ∈ pre, t + cfg.windowMs ≤ now)
    (hlast : ∀ t ∈ H, t ≤ last)
    (hspace : H.Pairwise (fun a b => a + cfg.minDelayMs ≤ b))
    (hwin : windowBounded cfg H) :
    (∃ pre, H ++ [(recordSlot cfg pruned last now).1] =
        pre ++ (recordSlot cfg pruned last now).2.1 ∧
      ∀ t ∈ pre, t + cfg.windowMs ≤ (recordSlot cfg pruned last now).1) ∧
    (∀ t ∈ H ++ [(recordSlot cfg pruned last now).1],
      t ≤ (recordSlot cfg pruned last now).2.2) ∧
    (H ++ [(recordSlot cfg pruned last now).1]).Pairwise
      (fun a b => a + cfg.minDelayMs ≤ b) ∧
    windowBounded cfg (H ++ [(recordSlot cfg pruned last now).1]) ∧
    last + cfg.minDelayMs ≤ (recordSlot cfg pruned last now).1 ∧
    now ≤ (recordSlot cfg pruned last now).1 ∧
    (recordSlot cfg pruned last now).2.2 = (recordSlot cfg pruned last now).1 := by
  rcases hpre with ⟨pre, hH, hexp⟩
  have hgl : last + cfg.minDelayMs ≤ (recordSlot cfg pruned last now).1 := by
    unfold recordSlot
    dsimp only
    split <;> omega
  have hgn : now ≤ (recordSlot cfg pruned last now).1 := by
    unfold recordSlot
    dsimp only
    split <;> omega
  have hsnd : (recordSlot cfg pruned last now).2.1 =
      pruned ++ [(recordSlot cfg pruned last now).1] := rfl
  have hthird : (recordSlot cfg pruned last now).2.2 =
      (recordSlot cfg pruned last now).1 := rfl
  set g := (recordSlot cfg pruned last now).1 with hg
  refine ⟨⟨pre, ?_, ?_⟩, ?_, ?_, ?_, hgl, hgn, hthird⟩
  · rw [hsnd, hH, List.append_assoc]
  · intro t ht
    exact le_trans (hexp t ht) hgn
  · intro t ht
    rw [hthird]
    rcases List.mem_append.mp ht with h | h
    · exact le_trans (hlast t h) (by omega)
    · simp only [List.mem_singleton] at h
      omega
  · rw [List.pairwise_append]
    refine ⟨hspace, List.pairwise_singleton _ _, ?_⟩
    intro a ha b hb
    simp only [List.mem_singleton] at hb
    subst hb
    have := hlast a ha
    omega
  · intro T
    rw [List.countP_append]
    by_cases hgT : T - cfg.windowMs < g ∧ g ≤ T
    · have hpre0 : pre.countP
          (fun x => decide (T - cfg.windowMs < x ∧ x ≤ T)) = 0 := by
        rw [List.countP_eq_zero]
        intro a ha
        have := hexp a ha
        simp only [decide_eq_true_eq]
        omega
      have hHc : H.countP (fun x => decide (T - cfg.windowMs < x ∧ x ≤ T)) ≤
          pruned.length := by
        rw [hH, List.countP_append, hpre0, Nat.zero_add]
        exact List.countP_le_length _
      have hone : List.countP (fun x => decide (T - cfg.windowMs < x ∧ x ≤ T))
          [g] ≤ 1 := List.countP_le_length _
      omega
    · have hzero : List.countP (fun x => decide (T - cfg.windowMs < x ∧ x ≤ T))
          [g] = 0 := by
        rw [List.countP_eq_zero]
        intro a ha
        simp only [List.mem_singleton] at ha
        subst ha
        simpa using hgT
      rw [hzero]
      simpa using hwin T

/-- Specification of one atomic `waitForSlot` acquisition, relative to the
ghost full grant history `H`: the returned grant keeps the history
min-delay-spaced and window-bounded, is at least `last + minDelayMs` and at
least `now`, and the new state refines the extended history. -/
theorem waitForSlot_spec (cfg : RateLimiterConfig)
    (hmax : 1 ≤ cfg.maxRequests) (hd : 0 ≤ cfg.minDelayMs) :
    ∀ (times : List Int) (last now : Int) (H : List Int),
      (∃ pre, H = pre ++ times ∧ ∀ t ∈ pre, t + cfg.windowMs ≤ now) →
      (∀ t ∈ H, t ≤ last) →
      H.Pairwise (fun a b => a + cfg.minDelayMs ≤ b) →
      windowBounded cfg H →
      (∃ pre, H ++ [(waitForSlot cfg times last now).1] =
          pre ++ (waitForSlot cfg times last now).2.1 ∧
        ∀ t ∈ pre, t + cfg.windowMs ≤ (waitForSlot cfg times last now).1) ∧
      (∀ t ∈ H ++ [(waitForSlot cfg times last now).1],
        t ≤ (waitForSlot cfg times last now).2.2) ∧
      (H ++ [(waitForSlot cfg times last now).1]).Pairwise
        (fun a b => a + cfg.minDelayMs ≤ b) ∧
      windowBounded cfg (H ++ [(waitForSlot cfg times last now).1]) ∧
      last + cfg.minDelayMs ≤ (waitForSlot cfg times last now).1 ∧
      now ≤ (waitForSlot cfg times last now).1 ∧
      (waitForSlot cfg times last now).2.2 =
        (waitForSlot cfg times last now).1 := by
  intro times last now
  induction times, last, now using waitForSlot.induct cfg with
  | case1 times last now hp =>
    intro H hpre hlast hspace hwin
    have hw : waitForSlot cfg times last now = recordSlot cfg [] last now := by
      rw [waitForSlot.eq_def]
      split
      · rfl
      · rename_i oldest rest heq
        rw [hp] at heq
        simp at heq
    rw [hw]
    refine recordSlot_spec cfg H [] last now hd hmax ?_ hlast hspace hwin
    rcases hpre with ⟨pre, hH, hexp⟩
    refine ⟨H, (List.append_nil H).symm, ?_⟩
    intro t ht
    rw [hH] at ht
    rcases List.mem_append.mp ht with h | h
    · exact hexp t h
    · have hnone := List.filter_eq_nil_iff.mp hp t h
      simp only [decide_eq_true_eq] at hnone
      omega
  | case2 times last now oldest rest hp hcond ih =>
    intro H hpre hlast hspace hwin
    rcases hpre with ⟨pre, hH, hexp⟩
    have hw : waitForSlot cfg times last now =
        waitForSlot cfg (oldest :: rest) last (oldest + cfg.windowMs) := by
      rw [waitForSlot.eq_def]
      split
      · rename_i heq
        rw [hp] at heq
        simp at heq
      · rename_i o r heq
        rw [hp] at heq
        injection heq with h1 h2
        subst h1
        subst h2
        rw [if_pos hcond]
    have hnow : now < oldest + cfg.windowMs := by omega
    have hsorted_t : times.Pairwise (fun a b => a ≤ b) := by
      have hparts := List.pairwise_append.mp (hH ▸ hspace)
      exact hparts.2.1.imp (fun h => by omega)
    have hup : ∀ a b : Int, a ≤ b →
        (fun t => decide (now - t < cfg.windowMs)) a = true →
        (fun t => decide (now - t < cfg.windowMs)) b = true := by
      intro a b hab h
      simp only [decide_eq_true_eq] at h ⊢
      omega
    have hspl := sorted_filter_split
      (fun t => decide (now - t < cfg.windowMs)) times hsorted_t hup
    rw [hp] at hspl
    have hpre' : ∃ pre2, H = pre2 ++ (oldest :: rest) ∧
        ∀ t ∈ pre2, t + cfg.windowMs ≤ oldest + cfg.windowMs := by
      refine ⟨pre ++ times.filter
        (fun t => ! (fun t => decide (now - t < cfg.windowMs)) t), ?_, ?_⟩
      · rw [hH, List.append_assoc, ← hspl]
      · intro t ht
        rcases List.mem_append.mp ht with h | h
        · have := hexp t h
          omega
        · have hmem := List.mem_filter.mp h
          simp only [Bool.not_eq_eq_eq_not, Bool.not_true,
            decide_eq_false_iff_not] at hmem
          omega
    rcases ih H hpre' hlast hspace hwin with ⟨hA, hB, hC, hD, hE, hF, hG⟩
    rw [hw]
    exact ⟨hA, hB, hC, hD, hE, le_trans (le_of_lt hnow) hF, hG⟩
  | case3 times last now oldest rest hp hcond =>
    intro H hpre hlast hspace hwin
    rcases hpre with ⟨pre, hH, hexp⟩
    have hw : waitForSlot cfg times last now =
        recordSlot cfg (oldest :: rest) last now := by
      rw [waitForSlot.eq_def]
      split
      · rename_i heq
        rw [hp] at heq
        simp at heq
      · rename_i o r heq
        rw [hp] at heq
        injection heq with h1 h2
        subst h1
        subst h2
        rw [if_neg hcond]
    have holdest : decide (now - oldest < cfg.windowMs) = true := by
      have : oldest ∈ times.filter (fun t => decide (now - t < cfg.windowMs)) := by
        rw [hp]
        exact List.mem_cons_self _ _
      exact (List.mem_filter.mp this).2
    simp only [decide_eq_true_eq] at holdest
    have hlen : (oldest :: rest).length < cfg.maxRequests := by
      rcases Nat.lt_or_ge (oldest :: rest).length cfg.maxRequests with h | h
      · exact h
      · exact absurd ⟨h, by omega⟩ hcond
    have hsorted_t : times.Pairwise (fun a b => a ≤ b) := by
      have hparts := List.pairwise_append.mp (hH ▸ hspace)
      exact hparts.2.1.imp (fun h => by omega)
    have hup : ∀ a b : Int, a ≤ b →
        (fun t => decide (now - t < cfg.windowMs)) a = true →
        (fun t => decide (now - t < cfg.windowMs)) b = true := by
      intro a b hab h
      simp only [decide_eq_true_eq] at h ⊢
      omega
    have hspl := sorted_filter_split
      (fun t => decide (now - t < cfg.windowMs)) times hsorted_t hup
    rw [hp] at hspl
    have hpre' : ∃ pre2, H = pre2 ++ (oldest :: rest) ∧
        ∀ t ∈ pre2, t + cfg.windowMs ≤ now := by
      refine ⟨pre ++ times.filter
        (fun t => ! (fun t => decide (now - t < cfg.windowMs)) t), ?_, ?_⟩
      · rw [hH, List.append_assoc, ← hspl]
      · intro t ht
        rcases List.mem_append.mp ht with h | h
        · exact hexp t h
        · have hmem := List.mem_filter.mp h
          simp only [Bool.not_eq_eq_eq_not, Bool.not_true,
            decide_eq_false_iff_not] at hmem
          omega
    rw [hw]
    exact recordSlot_spec cfg H (oldest :: rest) last now hd hlen hpre'
      hlast hspace hwin

/-- Invariant of a serial acquisition sequence: relative to the ghost full
grant history `H`, the grants extend the history keeping it min-delay-spaced
and window-bounded. -/
theorem runSerial_spec (cfg : RateLimiterConfig)
    (hmax : 1 ≤ cfg.maxRequests) (hd : 0 ≤ cfg.minDelayMs) :
    ∀ (ds : List Nat) (times : List Int) (last prev : Int) (H : List Int),
      (∃ pre, H = pre ++ times ∧ ∀ t ∈ pre, t + cfg.windowMs ≤ prev) →
      (∀ t ∈ H, t ≤ last) →
      H.Pairwise (fun a b => a + cfg.minDelayMs ≤ b) →
      windowBounded cfg H →
      (H ++ runSerial cfg times last prev ds).Pairwise
        (fun a b => a + cfg.minDelayMs ≤ b) ∧
      windowBounded cfg (H ++ runSerial cfg times last prev ds) := by
  intro ds
  induction ds with
  | nil =>
    intro times last prev H hpre hlast hspace hwin
    simpa [runSerial] using And.intro hspace hwin
  | cons d ds ih =>
    intro times last prev H hpre hlast hspace hwin
    rcases hpre with ⟨pre, hH, hexp⟩
    have hpre1 : ∃ pre1, H = pre1 ++ times ∧
        ∀ t ∈ pre1, t + cfg.windowMs ≤ prev + (d : Int) := by
      refine ⟨pre, hH, ?_⟩
      intro t ht
      have := hexp t ht
      have hd0 : (0 : Int) ≤ (d : Int) := Int.natCast_nonneg d
      omega
    rcases waitForSlot_spec cfg hmax hd times last (prev + (d : Int)) H hpre1
        hlast hspace hwin with ⟨hA, hB, hC, hD, hE, hF, hG⟩
    have hstep : runSerial cfg times last prev (d :: ds) =
        (waitForSlot cfg times last (prev + (d : Int))).1 ::
          runSerial cfg (waitForSlot cfg times last (prev + (d : Int))).2.1
            (waitForSlot cfg times last (prev + (d : Int))).2.2
            (waitForSlot cfg times last (prev + (d : Int))).1 ds := rfl
    rw [hstep]
    have happ : H ++ (waitForSlot cfg times last (prev + (d : Int))).1 ::
        runSerial cfg (waitForSlot cfg times last (prev + (d : Int))).2.1
          (waitForSlot cfg times last (prev + (d : Int))).2.2
          (waitForSlot cfg times last (prev + (d : Int))).1 ds =
        (H ++ [(waitForSlot cfg times last (prev + (d : Int))).1]) ++
        runSerial cfg (waitForSlot cfg times last (prev + (d : Int))).2.1
          (waitForSlot cfg times last (prev + (d : Int))).2.2
          (waitForSlot cfg times last (prev + (d : Int))).1 ds := by
      rw [List.append_assoc, List.singleton_append]
    rw [happ]
    exact ih (waitForSlot cfg times last (prev + (d : Int))).2.1
      (waitForSlot cfg times last (prev + (d : Int))).2.2
      (waitForSlot cfg times last (prev + (d : Int))).1
      (H ++ [(waitForSlot cfg times last (prev + (d : Int))).1])
      hA hB hC hD

/-- C4 (amended, serial part): for serial acquisitions the claimed invariant
holds. -/
theorem c4_serial_amended (cfg : RateLimiterConfig) (ds : List Nat)
    (start : Int) (hmax : 1 ≤ cfg.maxRequests) (hd : 0 ≤ cfg.minDelayMs) :
    minDelaySpaced cfg (runSerial cfg [] 0 start ds) ∧
    windowBounded cfg (runSerial cfg [] 0 start ds) := by
  have h := runSerial_spec cfg hmax hd ds [] 0 start []
    ⟨[], rfl, by intro t ht; cases ht⟩ (by intro t ht; cases ht)
    List.Pairwise.nil (by intro T; simp [List.countP_nil])
  rw [List.nil_append] at h
  refine ⟨h.1.imp ?_, h.2⟩
  intro a b hab
  right
  omega

theorem c4_serial_witness :
    minDelaySpaced DEFAULT_RATE_LIMIT_CONFIG
      (runSerial DEFAULT_RATE_LIMIT_CONFIG [] 0 1000 [0, 0, 0]) ∧
    windowBounded DEFAULT_RATE_LIMIT_CONFIG
      (runSerial DEFAULT_RATE_LIMIT_CONFIG [] 0 1000 [0, 0, 0]) :=
  c4_serial_amended DEFAULT_RATE_LIMIT_CONFIG [0, 0, 0] 1000
    (by decide) (by decide)

/-- C4 (counterexample, concurrent part): with interleaved callers the
limiter races between checking the state and recording the grant. -/
theorem c4_counterexample :
    ¬ ∀ c, LimiterReachable DEFAULT_RATE_LIMIT_CONFIG raceInit c →
        minDelaySpaced DEFAULT_RATE_LIMIT_CONFIG (grantsOf c) ∧
        windowBounded DEFAULT_RATE_LIMIT_CONFIG (grantsOf c) := by
  intro hclaim
  have hreach : LimiterReachable DEFAULT_RATE_LIMIT_CONFIG raceInit raceFinal := by
    refine Relation.ReflTransGen.head
      (LimiterStep.enter raceInit 0 1000 rfl (by decide)) ?_
    refine Relation.ReflTransGen.head
      (LimiterStep.advance _ 1010 (by decide)) ?_
    refine Relation.ReflTransGen.head
      (LimiterStep.enter _ 1 1010 rfl (by decide)) ?_
    refine Relation.ReflTransGen.head
      (LimiterStep.enter _ 2 1010 rfl (by decide)) ?_
    refine Relation.ReflTransGen.head
      (LimiterStep.advance _ 1050 (by decide)) ?_
    refine Relation.ReflTransGen.head
      (LimiterStep.wake _ 1 1050 rfl (by decide)) ?_
    exact Relation.ReflTransGen.single
      (LimiterStep.wake _ 2 1050 rfl (by decide))
  exact absurd (hclaim raceFinal hreach).1 (by decide)

end MangeLa
